import Mathlib

/-!
# Battery gauge: the rendering routine draw_screen

A shallow embedding of `battery_gauge::draw_screen` (src/battery_gauge/display_draw.h)
and the properties of it that the specification states.

## Modelling choices

* A C++ `float` is an IEEE 754 binary32 number. A `float` argument is a value of
  `CFloat = Option ℚ`: `none` is NaN (the source tests it with `std::isnan`), `some q` is
  the number `q`. A float literal `c` of the source is `f32_round c`, the binary32 number
  nearest to the decimal (0.08f is 5368709/67108864, not 2/25), and every `+`, `-`, `*`,
  `/` on floats rounds its exact result once, to nearest with ties to even (`f32_add`,
  `f32_sub`, `f32_mul`, `f32_div`). Comparisons, `fabsf`, `std::min` and `std::max` are
  exact. Subnormal numbers are modelled; the exponent is not bounded above, so overflow
  to infinity is not: an infinite value behaves in every comparison and clamp of the
  routine like a finite value of large magnitude, and no operation of the routine
  overflows on a phase of magnitude below 1e37.
* The two variables passed by reference come back in the result: `battery_flow_state`
  is an `Int` (the source type is `int`, any value can come in), `flow_animation_phase`
  is a rational number.
* The display is an output only: every call `it.f(...)` appends one `DrawCmd` to the
  list of commands of the frame, in program order. `printf` keeps the format string and
  its argument as the source passes them; the text layout belongs to the display library.
* `int(x)` on a float is truncation toward zero (`to_int`).
-/

namespace battery_gauge

/-- A C++ float: `none` is NaN, `some q` the number `q`. -/
abbrev CFloat := Option ℚ

/-- The two font resources handed to `draw_screen`. -/
inductive Font
  | font_small
  | font_big
  deriving DecidableEq, Repr

/-- The text alignments used: the default of `printf` and `TextAlign::TOP_RIGHT`. -/
inductive TextAlign
  | TOP_LEFT
  | TOP_RIGHT
  deriving DecidableEq, Repr

/-- Display colours; the routine only names `COLOR_OFF`. -/
inductive Color
  | COLOR_OFF
  | COLOR_ON
  deriving DecidableEq, Repr

/-- The variadic argument of a `printf` call. -/
inductive PrintArg
  | none
  | str (s : String)
  | num (v : ℚ)
  deriving DecidableEq, Repr

/-- One call on the drawing surface `it`. -/
inductive DrawCmd
  | fill (c : Color)
  | printf (x y : Int) (font : Font) (align : TextAlign) (format : String) (arg : PrintArg)
  | line (x1 y1 x2 y2 : Int)
  | circle (x y r : Int)
  | filled_circle (x y r : Int)
  | rectangle (x y w h : Int)
  | filled_rectangle (x y w h : Int)
  deriving DecidableEq, Repr

/-- What one call leaves behind: the frame and the two by-reference variables. -/
structure Outcome where
  cmds : List DrawCmd
  battery_flow_state : Int
  flow_animation_phase : ℚ
  deriving DecidableEq, Repr

/-- The conversion `int(x)` of a float: truncation toward zero. -/
def to_int (v : ℚ) : Int := if 0 ≤ v then ⌊v⌋ else ⌈v⌉

/-! ### Binary32 arithmetic -/

/-- Rounding to the nearest integer, a tie going to the even neighbour. -/
def round_half_even (n : ℚ) : Int :=
  if n - ⌊n⌋ < 1 / 2 then ⌊n⌋
  else if 1 / 2 < n - ⌊n⌋ then ⌊n⌋ + 1
  else if ⌊n⌋ % 2 = 0 then ⌊n⌋
  else ⌊n⌋ + 1

/-- The binary32 exponent of a magnitude `a`: `floor(log2 a)`, and -126 for the subnormal
magnitudes below `2 ^ (-126)`. Its value at 0 does not matter, as 0 rounds to 0. -/
def f32_exponent (a : ℚ) : Int := max (Int.log 2 a) (-126)

/-- The binary32 number nearest to a magnitude `a >= 0`: `a` rounded to a multiple of
`2 ^ (e - 23)`, the spacing of the 24-bit significands of exponent `e`. -/
def f32_round_mag (a : ℚ) : ℚ :=
  (round_half_even (a / (2 : ℚ) ^ (f32_exponent a - 23)) : ℚ)
    * (2 : ℚ) ^ (f32_exponent a - 23)

/-- Rounding to binary32, to nearest with ties to even; the rounding is symmetric in the
sign. -/
def f32_round (x : ℚ) : ℚ := if 0 ≤ x then f32_round_mag x else -f32_round_mag (-x)

/-- The float operation `a + b`. -/
def f32_add (a b : ℚ) : ℚ := f32_round (a + b)

/-- The float operation `a - b`. -/
def f32_sub (a b : ℚ) : ℚ := f32_round (a - b)

/-- The float operation `a * b`. -/
def f32_mul (a b : ℚ) : ℚ := f32_round (a * b)

/-- The float operation `a / b`. -/
def f32_div (a b : ℚ) : ℚ := f32_round (a / b)

/-! ### Icon helpers (lines 39-73) -/

/-- Lambda `thick_line` (lines 39-42). -/
def thick_line (x1 y1 x2 y2 : Int) : List DrawCmd :=
  [DrawCmd.line x1 y1 x2 y2, DrawCmd.line (x1 + 1) y1 (x2 + 1) y2]

/-- Lambda `draw_big_up_arrow` (lines 44-48). -/
def draw_big_up_arrow (cx top_y : Int) : List DrawCmd :=
  thick_line cx (top_y + 24) cx (top_y + 6)
    ++ thick_line cx top_y (cx - 8) (top_y + 8)
    ++ thick_line cx top_y (cx + 8) (top_y + 8)

/-- Lambda `draw_big_down_arrow` (lines 50-54). -/
def draw_big_down_arrow (cx top_y : Int) : List DrawCmd :=
  thick_line cx top_y cx (top_y + 18)
    ++ thick_line cx (top_y + 24) (cx - 8) (top_y + 16)
    ++ thick_line cx (top_y + 24) (cx + 8) (top_y + 16)

/-- Lambda `draw_big_sun` (lines 56-67). -/
def draw_big_sun (cx cy : Int) : List DrawCmd :=
  [ DrawCmd.circle cx cy 4,
    DrawCmd.circle cx cy 3,
    DrawCmd.line cx (cy - 9) cx (cy - 6),
    DrawCmd.line cx (cy + 6) cx (cy + 9),
    DrawCmd.line (cx - 9) cy (cx - 6) cy,
    DrawCmd.line (cx + 6) cy (cx + 9) cy,
    DrawCmd.line (cx - 6) (cy - 6) (cx - 5) (cy - 5),
    DrawCmd.line (cx + 5) (cy - 5) (cx + 6) (cy - 6),
    DrawCmd.line (cx - 6) (cy + 6) (cx - 5) (cy + 5),
    DrawCmd.line (cx + 5) (cy + 5) (cx + 6) (cy + 6) ]

/-- Lambda `draw_big_bolt` (lines 69-73). -/
def draw_big_bolt (cx cy : Int) : List DrawCmd :=
  thick_line (cx + 3) (cy - 10) (cx - 3) (cy - 2)
    ++ thick_line (cx - 3) (cy - 2) (cx + 3) (cy - 2)
    ++ thick_line (cx + 3) (cy - 2) (cx - 3) (cy + 10)

/-! ### Input clamping (lines 29-35) -/

/-- Lines 30-31: `battery_pct` forced into [0, 100]. -/
def clamp_battery_pct (battery_pct : ℚ) : ℚ :=
  let p := if battery_pct < 0 then 0 else battery_pct
  if p > 100 then 100 else p

/-- Lines 33-35: a NaN `reserve_pct` becomes 20.0f (exact in binary32), then the value is
forced into [0, 100]. -/
def clamp_reserve_pct (reserve_pct : CFloat) : ℚ :=
  let r := match reserve_pct with
    | none => 20.0
    | some v => v
  let r := if r < 0 then 0 else r
  if r > 100 then 100 else r

/-! ### Hysteresis (lines 78-92) -/

/-- Line 78, the float `-0.08f`. -/
def kChargeEnterKw : ℚ := f32_round (-0.08)

/-- Line 79, the float `0.08f`. -/
def kDischargeEnterKw : ℚ := f32_round 0.08

/-- Line 80, the float `-0.03f`. -/
def kChargeExitKw : ℚ := f32_round (-0.03)

/-- Line 81, the float `0.03f`. -/
def kDischargeExitKw : ℚ := f32_round 0.03

/-- Lines 83-92: the new value of `battery_flow_state`. -/
def update_flow_state (battery_kw : CFloat) (battery_flow_state : Int) : Int :=
  match battery_kw with
  | none => battery_flow_state
  | some kw =>
    if battery_flow_state = 0 then
      if kw ≤ kChargeEnterKw then -1
      else if kw ≥ kDischargeEnterKw then 1
      else battery_flow_state
    else if battery_flow_state = -1 then
      if kw > kChargeExitKw then 0 else battery_flow_state
    else if battery_flow_state = 1 then
      if kw < kDischargeExitKw then 0 else battery_flow_state
    else battery_flow_state

/-! ### Source attribution (lines 97-103) -/

/-- Lines 97-103, the flag `from_grid`; the threshold is the float `0.10f`. -/
def from_grid (is_charging : Bool) (grid_kw : CFloat) : Bool :=
  is_charging && (match grid_kw with
    | none => false
    | some g => decide (g > f32_round 0.10))

/-- Lines 97-103, the flag `from_solar`: set only on the `else` arm of the grid test. -/
def from_solar (is_charging : Bool) (solar_kw grid_kw : CFloat) : Bool :=
  is_charging && !(from_grid is_charging grid_kw) && (match solar_kw with
    | none => false
    | some s => decide (s > f32_round 0.10))

/-! ### Top row and percentage (lines 105-119) -/

/-- Lines 106-108: the label of the mode. -/
def mode_word (is_charging is_discharging : Bool) : String :=
  if is_discharging then "Discharging"
  else if is_charging then "Charging"
  else "Idle"

/-- Lines 111-116: the label, and the power text when `battery_kw` is a number. -/
def draw_top_row (is_charging is_discharging : Bool) (battery_kw : CFloat) : List DrawCmd :=
  DrawCmd.printf 0 0 Font.font_small TextAlign.TOP_LEFT "%s"
      (PrintArg.str (mode_word is_charging is_discharging))
    :: (match battery_kw with
        | none => []
        | some kw =>
          [DrawCmd.printf 128 0 Font.font_small TextAlign.TOP_RIGHT "%.1f kW" (PrintArg.num kw)])

/-! ### Animated flow (lines 122-146) -/

/-- Line 125, the float `3.0f` (exact in binary32). -/
def kMaxKwForSpeed : ℚ := 3.0

/-- Line 126: the magnitude of `battery_kw`, 0 when it is NaN. -/
def abs_battery_kw (battery_kw : CFloat) : ℚ :=
  match battery_kw with
  | some kw => |kw|
  | none => 0.0

/-- Line 127. -/
def speed_factor (battery_kw : CFloat) : ℚ :=
  min (max (f32_div (abs_battery_kw battery_kw) kMaxKwForSpeed) 0.0) 1.0

/-- Lines 130-131: the new value of `flow_animation_phase`; the product, the two sums and
the difference are float operations on the floats `0.020f`, `0.14f` and `1.0f`. -/
def advance_phase (battery_kw : CFloat) (flow_animation_phase : ℚ) : ℚ :=
  let p := f32_add flow_animation_phase
    (f32_add (f32_round 0.020) (f32_mul (f32_round 0.14) (speed_factor battery_kw)))
  if p > 1.0 then f32_sub p 1.0 else p

/-- The y coordinate of the sliding marker (lines 134-141). -/
def flow_marker_y (y_top : Int) (flow_downward : Bool) (flow_animation_phase : ℚ) : Int :=
  let track_height : Int := 22
  let y0 := y_top + 2
  let t := if flow_downward then flow_animation_phase
    else f32_sub 1.0 flow_animation_phase
  y0 + to_int (f32_mul t track_height)

/-- Lambda `draw_flow_track` (lines 133-146); the phase it captures is the advanced one. -/
def draw_flow_track (flow_animation_phase : ℚ) (x y_top : Int) (flow_downward : Bool) :
    List DrawCmd :=
  let track_height : Int := 22
  let y0 := y_top + 2
  let y1 := y0 + track_height
  let y := flow_marker_y y_top flow_downward flow_animation_phase
  [ DrawCmd.line x y0 x y1,
    DrawCmd.filled_circle x y 2,
    DrawCmd.filled_circle x y0 1,
    DrawCmd.filled_circle x y1 1 ]

/-- Lines 148-163: arrow, track and source icon of the mode. -/
def draw_flow_icons (is_charging is_discharging : Bool) (solar_kw grid_kw : CFloat)
    (flow_animation_phase : ℚ) : List DrawCmd :=
  let arrow_top_y : Int := 26
  let icon_center_y : Int := 40
  if is_discharging then
    draw_big_down_arrow 104 arrow_top_y
      ++ draw_flow_track flow_animation_phase 118 arrow_top_y true
  else if is_charging then
    draw_big_up_arrow 92 arrow_top_y
      ++ draw_flow_track flow_animation_phase 104 arrow_top_y false
      ++ (if from_solar is_charging solar_kw grid_kw then draw_big_sun 114 icon_center_y
          else if from_grid is_charging grid_kw then draw_big_bolt 114 icon_center_y
          else [DrawCmd.filled_circle 114 icon_center_y 2])
  else
    [DrawCmd.circle 104 icon_center_y 7]

/-! ### Battery bar (lines 166-189) -/

def bar_left : Int := 0
def bar_top : Int := 56
def bar_width : Int := 116
def bar_height : Int := 8

/-- Lines 171-172, on the clamped `battery_pct`. -/
def filled_width (battery_pct : ℚ) : Int :=
  min (max (to_int (f32_mul (f32_div battery_pct 100.0) bar_width)) 0) bar_width

/-- Lines 174-175, on the clamped `reserve_pct`. -/
def reserve_marker_x (reserve_pct : ℚ) : Int :=
  min (max (bar_left + to_int (f32_mul (f32_div reserve_pct 100.0) bar_width)) bar_left)
    (bar_left + bar_width)

/-- The loop of lines 181-183 from column `x` on, `fuel` bounding the iterations left. -/
def hatch_loop : Nat → Int → Int → List DrawCmd
  | 0, _, _ => []
  | fuel + 1, x, limit =>
    if x < limit then
      DrawCmd.line x (bar_top + 1) x (bar_top + bar_height - 2) :: hatch_loop fuel (x + 2) limit
    else []

/-- Lines 180-189: the hatched fill up to the reserve marker, then the solid fill. -/
def draw_bar_fill (filled_width reserve_marker_x : Int) : List DrawCmd :=
  let reserve_fill_limit := min filled_width (reserve_marker_x - bar_left)
  hatch_loop (bar_left + reserve_fill_limit - bar_left).toNat bar_left
      (bar_left + reserve_fill_limit)
    ++ (if filled_width > reserve_marker_x - bar_left then
          [DrawCmd.filled_rectangle reserve_marker_x (bar_top + 1)
            (filled_width - (reserve_marker_x - bar_left)) (bar_height - 2)]
        else [])

/-- Lines 166-189: outline, end cap, reserve marker and fill. -/
def draw_battery_bar (battery_pct reserve_pct : ℚ) : List DrawCmd :=
  [ DrawCmd.rectangle bar_left bar_top bar_width bar_height,
    DrawCmd.rectangle (bar_left + bar_width + 2) (bar_top + 2) 4 (bar_height - 4),
    DrawCmd.line (reserve_marker_x reserve_pct) bar_top (reserve_marker_x reserve_pct)
      (bar_top + bar_height - 1) ]
    ++ draw_bar_fill (filled_width battery_pct) (reserve_marker_x reserve_pct)

/-! ### The routine -/

/-- The frame of lines 24-25, drawn while `battery_pct` is NaN. -/
def draw_waiting : List DrawCmd :=
  [ DrawCmd.printf 0 18 Font.font_big TextAlign.TOP_LEFT "--%%" PrintArg.none,
    DrawCmd.printf 0 54 Font.font_small TextAlign.TOP_LEFT "Waiting for data" PrintArg.none ]

/-- The routine `draw_screen` (lines 7-190). -/
def draw_screen (battery_pct battery_kw solar_kw grid_kw reserve_pct : CFloat)
    (battery_flow_state : Int) (flow_animation_phase : ℚ) : Outcome :=
  match battery_pct with
  | none =>
    { cmds := DrawCmd.fill Color.COLOR_OFF :: draw_waiting,
      battery_flow_state := battery_flow_state,
      flow_animation_phase := flow_animation_phase }
  | some pct =>
    let battery_pct := clamp_battery_pct pct
    let reserve_pct := clamp_reserve_pct reserve_pct
    let battery_flow_state := update_flow_state battery_kw battery_flow_state
    let is_charging := decide (battery_flow_state = -1)
    let is_discharging := decide (battery_flow_state = 1)
    let flow_animation_phase := advance_phase battery_kw flow_animation_phase
    { cmds :=
        DrawCmd.fill Color.COLOR_OFF
          :: draw_top_row is_charging is_discharging battery_kw
          ++ [DrawCmd.printf 0 16 Font.font_big TextAlign.TOP_LEFT "%.0f%%"
                (PrintArg.num battery_pct)]
          ++ draw_flow_icons is_charging is_discharging solar_kw grid_kw flow_animation_phase
          ++ draw_battery_bar battery_pct reserve_pct,
      battery_flow_state := battery_flow_state,
      flow_animation_phase := flow_animation_phase }

/-- Successive calls of `draw_screen`, one per reading of `battery_kw`, the flow state and
the phase carried from each call to the next; the flow state after each call. -/
def flow_states_after (battery_pct solar_kw grid_kw reserve_pct : CFloat) :
    List CFloat → Int → ℚ → List Int
  | [], _, _ => []
  | battery_kw :: rest, battery_flow_state, flow_animation_phase =>
    let o := draw_screen battery_pct battery_kw solar_kw grid_kw reserve_pct
      battery_flow_state flow_animation_phase
    o.battery_flow_state
      :: flow_states_after battery_pct solar_kw grid_kw reserve_pct rest
          o.battery_flow_state o.flow_animation_phase

/-! ### The specification's vocabulary -/

/-- The three modes of section 4.2 of the specification. -/
inductive FlowMode
  | Idle
  | Charging
  | Discharging
  deriving DecidableEq, Repr

/-- The integer that stands for a mode: Idle(0), Charging(-1), Discharging(+1). -/
def FlowMode.code : FlowMode → Int
  | FlowMode.Idle => 0
  | FlowMode.Charging => -1
  | FlowMode.Discharging => 1

/-- The float `0.08f` of lines 78-79, the binary32 number nearest to 0.08; it is below
0.08. -/
def enter_threshold : ℚ := 5368709 / 67108864

/-- The float `0.03f` of lines 80-81, the binary32 number nearest to 0.03; it is below
0.03. -/
def exit_threshold : ℚ := 16106127 / 536870912

/-- The float `0.10f` of lines 101-102, the binary32 number nearest to 0.10; it is above
0.10. -/
def source_threshold : ℚ := 13421773 / 134217728

/-- The transition table of section 4.2 with the thresholds the routine holds: the floats
`0.08f` and `0.03f` in place of the decimals. -/
def spec_transition_f32 (m : FlowMode) (battery_kw : ℚ) : FlowMode :=
  match m with
  | FlowMode.Idle =>
    if battery_kw ≤ -enter_threshold then FlowMode.Charging
    else if battery_kw ≥ enter_threshold then FlowMode.Discharging
    else FlowMode.Idle
  | FlowMode.Charging =>
    if battery_kw > -exit_threshold then FlowMode.Idle else FlowMode.Charging
  | FlowMode.Discharging =>
    if battery_kw < exit_threshold then FlowMode.Idle else FlowMode.Discharging

/-- The readings between a float threshold and the decimal it stands for: the only
readings on which the table with the floats and the table with the decimals differ. -/
def in_threshold_gap (battery_kw : ℚ) : Prop :=
  (enter_threshold ≤ battery_kw ∧ battery_kw < 0.08)
    ∨ (-0.08 < battery_kw ∧ battery_kw ≤ -enter_threshold)
    ∨ (exit_threshold ≤ battery_kw ∧ battery_kw < 0.03)
    ∨ (-0.03 < battery_kw ∧ battery_kw ≤ -exit_threshold)

/-- The dead band of a mode with the thresholds the routine holds. -/
def in_dead_band_f32 (m : FlowMode) (battery_kw : ℚ) : Prop :=
  match m with
  | FlowMode.Idle => -enter_threshold < battery_kw ∧ battery_kw < enter_threshold
  | FlowMode.Charging => battery_kw ≤ -exit_threshold
  | FlowMode.Discharging => battery_kw ≥ exit_threshold

/-- The transition table of section 4.2, written from the specification's sentences. -/
def spec_transition (m : FlowMode) (battery_kw : ℚ) : FlowMode :=
  match m with
  | FlowMode.Idle =>
    if battery_kw ≤ -0.08 then FlowMode.Charging
    else if battery_kw ≥ 0.08 then FlowMode.Discharging
    else FlowMode.Idle
  | FlowMode.Charging =>
    if battery_kw > -0.03 then FlowMode.Idle else FlowMode.Charging
  | FlowMode.Discharging =>
    if battery_kw < 0.03 then FlowMode.Idle else FlowMode.Discharging

/-- The dead band of a mode: the readings on which the specification keeps the mode. -/
def in_dead_band (m : FlowMode) (battery_kw : ℚ) : Prop :=
  match m with
  | FlowMode.Idle => -0.08 < battery_kw ∧ battery_kw < 0.08
  | FlowMode.Charging => battery_kw ≤ -0.03
  | FlowMode.Discharging => battery_kw ≥ 0.03

/-- What a `printf` format without conversions prints: `%%` stands for one `%`. -/
def printed_literal : List Char → List Char
  | '%' :: '%' :: rest => '%' :: printed_literal rest
  | c :: rest => c :: printed_literal rest
  | [] => []

/-- The text of a `printf` command that has no argument. -/
def printed_text (format : String) : String := String.mk (printed_literal format.data)

/-- The specification's `clamp(x, lo, hi)`. -/
def spec_clamp (x lo hi : ℚ) : ℚ := if x < lo then lo else if x > hi then hi else x

/-- The specification's fill width of the bar for a known `battery_pct`: the value of the
nearest boundary outside [0, 100], `floor(battery_pct / 100 * 116)` inside. -/
def spec_fill_width (battery_pct : ℚ) : Int :=
  if battery_pct < 0 then 0
  else if battery_pct > 100 then 116
  else ⌊battery_pct / 100 * 116⌋

/-- The specification's offset of the reserve marker from the bar start:
`floor(clamp(reserve_pct, 0, 100) / 100 * 116)`, an unknown `reserve_pct` read as 20.0. -/
def spec_marker_offset (reserve_pct : CFloat) : Int :=
  match reserve_pct with
  | none => ⌊spec_clamp 20.0 0 100 / 100 * 116⌋
  | some r => ⌊spec_clamp r 0 100 / 100 * 116⌋

/-- The columns `start`, `start + 2`, `start + 4`, ... below `limit`: every second column,
the even ones when `start` is 0. -/
def spec_hatch_columns (start limit : Int) : List Int :=
  (List.range ((limit - start + 1) / 2).toNat).map (fun (k : Nat) => start + 2 * (k : Int))

/-- The specification's fill of the bar, for the filled width `f` and the marker offset `r`
(the bar starts at column 0): hatch lines on every second column below `min f r`, then one
solid rectangle over the columns from `r` up to `f`, drawn only if `f > r`. -/
def spec_bar_fill (f r : Int) : List DrawCmd :=
  (spec_hatch_columns 0 (min f r)).map (fun c => DrawCmd.line c 57 c 62)
    ++ (if f > r then [DrawCmd.filled_rectangle r 57 (f - r) 6] else [])

/-- The columns a fill command paints: the column of a vertical line, the columns
`x` to `x + w - 1` of a filled rectangle. -/
def fill_covers (c : DrawCmd) (col : Int) : Prop :=
  match c with
  | DrawCmd.line x1 _ x2 _ => x1 = col ∧ x2 = col
  | DrawCmd.filled_rectangle x _ w _ => x ≤ col ∧ col < x + w
  | _ => False

/-- The source of the charge, as section 4.2 of the specification classifies it. -/
inductive PowerSource
  | grid
  | solar
  | neither
  deriving DecidableEq, Repr

/-- The specification's test "known and above the threshold". -/
def known_above (v : CFloat) (threshold : ℚ) : Bool :=
  match v with
  | none => false
  | some x => decide (x > threshold)

/-- The specification's source attribution: grid if `grid_kw > 0.10`, else solar if
`solar_kw > 0.10`, else neither. -/
def spec_source (grid_kw solar_kw : CFloat) : PowerSource :=
  if known_above grid_kw 0.10 then PowerSource.grid
  else if known_above solar_kw 0.10 then PowerSource.solar
  else PowerSource.neither

/-- The source attribution with the threshold the routine holds, the float `0.10f`: grid
if `grid_kw > 0.10f`, else solar if `solar_kw > 0.10f`, else neither. -/
def spec_source_f32 (grid_kw solar_kw : CFloat) : PowerSource :=
  if known_above grid_kw source_threshold then PowerSource.grid
  else if known_above solar_kw source_threshold then PowerSource.solar
  else PowerSource.neither

/-- The values between the decimal 0.10 and the float `0.10f`, the only ones the source
test with the float and the test with the decimal treat differently. -/
def in_source_gap (v : CFloat) : Prop :=
  match v with
  | none => False
  | some x => 0.10 < x ∧ x ≤ source_threshold

/-- The icon of a source, stroke by stroke: the bolt (three double lines) for grid, the
sun (two circles and eight rays) for solar, the small dot for neither, all centred on
(114, 40). -/
def spec_source_icon : PowerSource → List DrawCmd
  | PowerSource.grid =>
    [ DrawCmd.line 117 30 111 38, DrawCmd.line 118 30 112 38,
      DrawCmd.line 111 38 117 38, DrawCmd.line 112 38 118 38,
      DrawCmd.line 117 38 111 50, DrawCmd.line 118 38 112 50 ]
  | PowerSource.solar =>
    [ DrawCmd.circle 114 40 4, DrawCmd.circle 114 40 3,
      DrawCmd.line 114 31 114 34, DrawCmd.line 114 46 114 49,
      DrawCmd.line 105 40 108 40, DrawCmd.line 120 40 123 40,
      DrawCmd.line 108 34 109 35, DrawCmd.line 119 35 120 34,
      DrawCmd.line 108 46 109 45, DrawCmd.line 119 45 120 46 ]
  | PowerSource.neither => [DrawCmd.filled_circle 114 40 2]

/-- The up-arrow, stroke by stroke: a double shaft from (92, 50) up to (92, 32) and a
double head from the tip (92, 26) down to both sides. -/
def spec_up_arrow : List DrawCmd :=
  [ DrawCmd.line 92 50 92 32, DrawCmd.line 93 50 93 32,
    DrawCmd.line 92 26 84 34, DrawCmd.line 93 26 85 34,
    DrawCmd.line 92 26 100 34, DrawCmd.line 93 26 101 34 ]

/-- The down-arrow, stroke by stroke: a double shaft from (104, 26) down to (104, 44) and
a double head from the tip (104, 50) up to both sides. -/
def spec_down_arrow : List DrawCmd :=
  [ DrawCmd.line 104 26 104 44, DrawCmd.line 105 26 105 44,
    DrawCmd.line 104 50 96 42, DrawCmd.line 105 50 97 42,
    DrawCmd.line 104 50 112 42, DrawCmd.line 105 50 113 42 ]

/-- The flow track on column `x` with the marker at `marker_y`: the track from y0 = 28 to
y1 = 50, the marker of radius 2, and the two end dots of radius 1. -/
def spec_track (x marker_y : Int) : List DrawCmd :=
  [ DrawCmd.line x 28 x 50,
    DrawCmd.filled_circle x marker_y 2,
    DrawCmd.filled_circle x 28 1,
    DrawCmd.filled_circle x 50 1 ]

/-- The specification's sanitized `reserve_pct`: 20 if unknown, else clamped to [0, 100]. -/
def spec_reserve_pct (reserve_pct : CFloat) : ℚ :=
  match reserve_pct with
  | none => 20
  | some r => spec_clamp r 0 100

/-- The specification's mode label of a flow state: "Charging" for -1, "Discharging" for
+1, "Idle" otherwise. -/
def spec_mode_label (state : Int) : String :=
  if state = -1 then "Charging"
  else if state = 1 then "Discharging"
  else "Idle"

/-- The specification's power text: right-aligned, one decimal and "kW", only for a known
`battery_kw`. -/
def spec_power_text (battery_kw : CFloat) : List DrawCmd :=
  match battery_kw with
  | none => []
  | some kw =>
    [DrawCmd.printf 128 0 Font.font_small TextAlign.TOP_RIGHT "%.1f kW" (PrintArg.num kw)]

/-- The commands that draw text. -/
def is_text_cmd : DrawCmd → Bool
  | DrawCmd.printf _ _ _ _ _ _ => true
  | _ => false

/-- The commands of the icon area: circles, filled circles and lines that start above the
battery bar, whose top row is y = 56. -/
def is_icon_cmd : DrawCmd → Bool
  | DrawCmd.circle _ _ _ => true
  | DrawCmd.filled_circle _ _ _ => true
  | DrawCmd.line _ y1 _ _ => decide (y1 < 56)
  | _ => false

/-- The specification's icons of a flow state: up-arrow, flow track on column 104 and
source icon for Charging (-1); down-arrow and flow track on column 118 for Discharging
(+1); the plain ring otherwise. -/
def spec_mode_icons (state : Int) (source : PowerSource) (marker_y : Int) : List DrawCmd :=
  if state = -1 then
    spec_up_arrow ++ spec_track 104 marker_y ++ spec_source_icon source
  else if state = 1 then
    spec_down_arrow ++ spec_track 118 marker_y
  else
    [DrawCmd.circle 104 40 7]

/-- Rounding to nearest moves a number by at most one half and not below its floor. -/
theorem round_half_even_bounds (n : ℚ) :
    n - 1 / 2 ≤ (round_half_even n : ℚ) ∧ (round_half_even n : ℚ) ≤ n + 1 / 2
      ∧ ⌊n⌋ ≤ round_half_even n := by
  have h1 := Int.floor_le n
  have h2 := Int.lt_floor_add_one n
  unfold round_half_even
  split_ifs <;> push_cast <;> refine ⟨by linarith, by linarith, by omega⟩

/-- The exponent of a positive magnitude between two consecutive powers of two. -/
theorem f32_exponent_eq (a : ℚ) (e : ℤ) (he : -126 ≤ e) (ha : 0 < a)
    (h1 : (2 : ℚ) ^ e ≤ a ∨ e = -126) (h2 : a < (2 : ℚ) ^ (e + 1)) :
    f32_exponent a = e := by
  have hlt : Int.log 2 a < e + 1 :=
    (Int.lt_zpow_iff_log_lt (b := 2) (by norm_num) ha (x := e + 1)).mp (by exact_mod_cast h2)
  unfold f32_exponent
  rcases h1 with h1 | h1
  · have hle : e ≤ Int.log 2 a :=
      (Int.zpow_le_iff_le_log (b := 2) (by norm_num) ha (x := e)).mp (by exact_mod_cast h1)
    have hlog : Int.log 2 a = e := by omega
    rw [hlog]
    exact max_eq_left he
  · subst h1
    exact max_eq_right (by omega)

/-- Zero is a binary32 number. -/
theorem f32_round_mag_zero : f32_round_mag 0 = 0 := by
  simp [f32_round_mag, round_half_even]

/-- Rounding a magnitude whose exponent is known. -/
theorem f32_round_mag_of_exponent (a : ℚ) (e : ℤ) (he : -126 ≤ e) (h0 : 0 ≤ a)
    (h1 : (2 : ℚ) ^ e ≤ a ∨ e = -126) (h2 : a < (2 : ℚ) ^ (e + 1)) :
    f32_round_mag a
      = (round_half_even (a / (2 : ℚ) ^ (e - 23)) : ℚ) * (2 : ℚ) ^ (e - 23) := by
  rcases eq_or_lt_of_le h0 with h | h
  · subst h
    rw [f32_round_mag_zero]
    simp [round_half_even]
  · unfold f32_round_mag
    rw [f32_exponent_eq a e he h h1 h2]

/-- Rounding a non-negative number whose exponent is known. -/
theorem f32_round_of_exponent (x : ℚ) (e : ℤ) (he : -126 ≤ e) (h0 : 0 ≤ x)
    (h1 : (2 : ℚ) ^ e ≤ x ∨ e = -126) (h2 : x < (2 : ℚ) ^ (e + 1)) :
    f32_round x
      = (round_half_even (x / (2 : ℚ) ^ (e - 23)) : ℚ) * (2 : ℚ) ^ (e - 23) := by
  rw [f32_round, if_pos h0]
  exact f32_round_mag_of_exponent x e he h0 h1 h2

/-- Rounding is symmetric in the sign. -/
theorem f32_round_neg (x : ℚ) : f32_round (-x) = -f32_round x := by
  unfold f32_round
  rcases lt_trichotomy x 0 with h | h | h
  · rw [if_pos (by linarith), if_neg (by linarith)]
    simp
  · subst h
    simp [f32_round_mag_zero]
  · rw [if_neg (by linarith), if_pos (by linarith)]
    simp

/-- Rounding keeps the sign of a non-negative magnitude. -/
theorem f32_round_mag_nonneg (a : ℚ) (h0 : 0 ≤ a) : 0 ≤ f32_round_mag a := by
  unfold f32_round_mag
  have hq : (0 : ℚ) < (2 : ℚ) ^ (f32_exponent a - 23) := zpow_pos (by norm_num) _
  have hn : 0 ≤ a / (2 : ℚ) ^ (f32_exponent a - 23) := div_nonneg h0 hq.le
  have hf : 0 ≤ round_half_even (a / (2 : ℚ) ^ (f32_exponent a - 23)) :=
    le_trans (Int.floor_nonneg.mpr hn) (round_half_even_bounds _).2.2
  exact mul_nonneg (by exact_mod_cast hf) hq.le

/-- Rounding a magnitude below `2 ^ (E + 1)` moves it by at most half a spacing of the
exponent `E`. -/
theorem f32_round_mag_error (a : ℚ) (E : ℤ) (hE : -126 ≤ E) (h0 : 0 ≤ a)
    (h : a < (2 : ℚ) ^ (E + 1)) : |f32_round_mag a - a| ≤ (2 : ℚ) ^ (E - 24) := by
  rcases eq_or_lt_of_le h0 with h' | h'
  · subst h'
    rw [f32_round_mag_zero]
    simp only [sub_zero, abs_zero]
    exact (zpow_pos (by norm_num) _).le
  · have hlt : Int.log 2 a < E + 1 :=
      (Int.lt_zpow_iff_log_lt (b := 2) (by norm_num) h' (x := E + 1)).mp (by exact_mod_cast h)
    have hle : f32_exponent a ≤ E := by
      unfold f32_exponent
      exact max_le (by omega) hE
    unfold f32_round_mag
    set q : ℚ := (2 : ℚ) ^ (f32_exponent a - 23) with hq
    have hqpos : 0 < q := zpow_pos (by norm_num) _
    obtain ⟨b1, b2, _⟩ := round_half_even_bounds (a / q)
    have e1 : (round_half_even (a / q) : ℚ) * q - a
        = ((round_half_even (a / q) : ℚ) - a / q) * q := by
      field_simp
    rw [e1, abs_mul, abs_of_pos hqpos]
    have hab : |(round_half_even (a / q) : ℚ) - a / q| ≤ 1 / 2 :=
      abs_le.mpr ⟨by linarith, by linarith⟩
    have hq2 : q * (1 / 2) = (2 : ℚ) ^ (f32_exponent a - 24) := by
      rw [hq, show f32_exponent a - 24 = (f32_exponent a - 23) - 1 by ring,
        zpow_sub_one₀ (by norm_num)]
      norm_num
    calc |(round_half_even (a / q) : ℚ) - a / q| * q ≤ (1 / 2) * q :=
          mul_le_mul_of_nonneg_right hab hqpos.le
      _ = (2 : ℚ) ^ (f32_exponent a - 24) := by rw [← hq2]; ring
      _ ≤ (2 : ℚ) ^ (E - 24) := zpow_le_zpow_right₀ (by norm_num) (by omega)

/-- Rounding keeps a non-negative number non-negative. -/
theorem f32_round_nonneg (x : ℚ) (h0 : 0 ≤ x) : 0 ≤ f32_round x := by
  rw [f32_round, if_pos h0]
  exact f32_round_mag_nonneg x h0

/-- The rounding error of a number of magnitude below `2 ^ (E + 1)`. -/
theorem f32_round_error (x : ℚ) (E : ℤ) (hE : -126 ≤ E) (h : |x| < (2 : ℚ) ^ (E + 1)) :
    |f32_round x - x| ≤ (2 : ℚ) ^ (E - 24) := by
  unfold f32_round
  split_ifs with h0
  · rw [abs_of_nonneg h0] at h
    exact f32_round_mag_error x E hE h0 h
  · have hx : x < 0 := not_le.mp h0
    rw [abs_of_neg hx] at h
    have he := f32_round_mag_error (-x) E hE (by linarith) h
    have e1 : -f32_round_mag (-x) - x = -(f32_round_mag (-x) - -x) := by ring
    rw [e1, abs_neg]
    exact he

/-- A number below 1 does not round above 1. -/
theorem f32_round_le_one (x : ℚ) (h0 : 0 ≤ x) (h : x < 1) : f32_round x ≤ 1 := by
  rw [f32_round, if_pos h0]
  rcases eq_or_lt_of_le h0 with h' | h'
  · subst h'
    rw [f32_round_mag_zero]
    norm_num
  · have hlt : Int.log 2 x < 0 :=
      (Int.lt_zpow_iff_log_lt (b := 2) (by norm_num) h' (x := 0)).mp (by simpa using h)
    have hle : f32_exponent x ≤ -1 := by
      unfold f32_exponent
      exact max_le (by omega) (by norm_num)
    unfold f32_round_mag
    set e : ℤ := f32_exponent x with he
    have hqpos : (0 : ℚ) < (2 : ℚ) ^ (e - 23) := zpow_pos (by norm_num) _
    obtain ⟨m, hm⟩ : ∃ m : ℕ, (m : ℤ) = 23 - e := ⟨(23 - e).toNat, Int.toNat_of_nonneg (by omega)⟩
    have hinv : (2 : ℚ) ^ (e - 23) * (2 : ℚ) ^ m = 1 := by
      rw [← zpow_natCast, ← zpow_add₀ (by norm_num), hm]
      simp
    obtain ⟨_, b2, _⟩ := round_half_even_bounds (x / (2 : ℚ) ^ (e - 23))
    have hn : x / (2 : ℚ) ^ (e - 23) < (2 : ℚ) ^ m := by
      rw [div_lt_iff₀ hqpos]
      calc x < 1 := h
        _ = (2 : ℚ) ^ m * (2 : ℚ) ^ (e - 23) := by rw [mul_comm]; exact hinv.symm
    have hr : (round_half_even (x / (2 : ℚ) ^ (e - 23)) : ℚ) < (((2 : ℤ) ^ m + 1 : ℤ) : ℚ) := by
      push_cast
      linarith
    have hr2 : round_half_even (x / (2 : ℚ) ^ (e - 23)) ≤ (2 : ℤ) ^ m := by
      have := Int.cast_lt.mp hr
      omega
    have hr3 : (round_half_even (x / (2 : ℚ) ^ (e - 23)) : ℚ) ≤ (2 : ℚ) ^ m := by
      exact_mod_cast hr2
    calc (round_half_even (x / (2 : ℚ) ^ (e - 23)) : ℚ) * (2 : ℚ) ^ (e - 23)
        ≤ (2 : ℚ) ^ m * (2 : ℚ) ^ (e - 23) := mul_le_mul_of_nonneg_right hr3 hqpos.le
      _ = 1 := by rw [mul_comm]; exact hinv

/-- Between 1 and 2 the binary32 numbers are the multiples of `2 ^ (-23)`. -/
theorem f32_round_grid_one (x : ℚ) (h1 : 1 ≤ x) (h2 : x < 2) :
    ∃ k : ℤ, f32_round x = (k : ℚ) / 8388608 := by
  refine ⟨round_half_even (x / (2 : ℚ) ^ ((0 : ℤ) - 23)), ?_⟩
  rw [f32_round_of_exponent x 0 (by norm_num) (by linarith) (Or.inl (by simpa using h1))
    (by simpa using h2)]
  norm_num
  ring

/-- Two rationals less than 1 apart have floors at most 1 apart. -/
theorem floor_near (a b : ℚ) (h : |a - b| < 1) : |⌊a⌋ - ⌊b⌋| ≤ 1 := by
  obtain ⟨h1, h2⟩ := abs_lt.mp h
  have a1 := Int.floor_le a
  have a2 := Int.lt_floor_add_one a
  have b1 := Int.floor_le b
  have b2 := Int.lt_floor_add_one b
  have u : ((⌊a⌋ - ⌊b⌋ : ℤ) : ℚ) < 2 := by push_cast; linarith
  have l : (-2 : ℚ) < ((⌊a⌋ - ⌊b⌋ : ℤ) : ℚ) := by push_cast; linarith
  have u' : ⌊a⌋ - ⌊b⌋ < 2 := by exact_mod_cast u
  have l' : -2 < ⌊a⌋ - ⌊b⌋ := by exact_mod_cast l
  rw [abs_le]
  constructor <;> omega

/-! ### The floats of the routine -/

/-- The four hysteresis constants of lines 78-81 as fractions. -/
theorem threshold_values :
    kChargeEnterKw = -enter_threshold ∧ kDischargeEnterKw = enter_threshold
      ∧ kChargeExitKw = -exit_threshold ∧ kDischargeExitKw = exit_threshold := by
  have h8 : f32_round 0.08 = enter_threshold := by
    rw [f32_round_of_exponent 0.08 (-4) (by norm_num) (by norm_num) (Or.inl (by norm_num))
      (by norm_num)]
    norm_num [round_half_even, enter_threshold]
  have h3 : f32_round 0.03 = exit_threshold := by
    rw [f32_round_of_exponent 0.03 (-6) (by norm_num) (by norm_num) (Or.inl (by norm_num))
      (by norm_num)]
    norm_num [round_half_even, exit_threshold]
  refine ⟨?_, h8, ?_, h3⟩
  · rw [kChargeEnterKw, show (-0.08 : ℚ) = -(0.08) by norm_num, f32_round_neg, h8]
  · rw [kChargeExitKw, show (-0.03 : ℚ) = -(0.03) by norm_num, f32_round_neg, h3]

/-- The floats `0.10f`, `0.020f` and `0.14f` as fractions. -/
theorem literal_values :
    f32_round 0.10 = source_threshold ∧ f32_round 0.020 = 5368709 / 268435456
      ∧ f32_round 0.14 = 9395241 / 67108864 := by
  refine ⟨?_, ?_, ?_⟩
  · rw [f32_round_of_exponent 0.10 (-4) (by norm_num) (by norm_num) (Or.inl (by norm_num))
      (by norm_num)]
    norm_num [round_half_even, source_threshold]
  · rw [f32_round_of_exponent 0.020 (-6) (by norm_num) (by norm_num) (Or.inl (by norm_num))
      (by norm_num)]
    norm_num [round_half_even]
  · rw [f32_round_of_exponent 0.14 (-3) (by norm_num) (by norm_num) (Or.inl (by norm_num))
      (by norm_num)]
    norm_num [round_half_even]

/-- The numbers 0, 1, 3, 20, 22, 100 and 116, which the routine uses as floats, are
binary32 numbers. -/
theorem exact_literals :
    f32_round 0 = 0 ∧ f32_round 1 = 1 ∧ f32_round 3 = 3 ∧ f32_round 20 = 20
      ∧ f32_round 22 = 22 ∧ f32_round 100 = 100 ∧ f32_round 116 = 116 := by
  refine ⟨?_, ?_, ?_, ?_, ?_, ?_, ?_⟩
  · simp [f32_round, f32_round_mag_zero]
  · rw [f32_round_of_exponent 1 0 (by norm_num) (by norm_num) (Or.inl (by norm_num))
      (by norm_num)]
    norm_num [round_half_even]
  · rw [f32_round_of_exponent 3 1 (by norm_num) (by norm_num) (Or.inl (by norm_num))
      (by norm_num)]
    norm_num [round_half_even]
  · rw [f32_round_of_exponent 20 4 (by norm_num) (by norm_num) (Or.inl (by norm_num))
      (by norm_num)]
    norm_num [round_half_even]
  · rw [f32_round_of_exponent 22 4 (by norm_num) (by norm_num) (Or.inl (by norm_num))
      (by norm_num)]
    norm_num [round_half_even]
  · rw [f32_round_of_exponent 100 6 (by norm_num) (by norm_num) (Or.inl (by norm_num))
      (by norm_num)]
    norm_num [round_half_even]
  · rw [f32_round_of_exponent 116 6 (by norm_num) (by norm_num) (Or.inl (by norm_num))
      (by norm_num)]
    norm_num [round_half_even]

/-! ### The hysteresis -/

/-- Lines 83-92 on the code of a mode compute the transition table with the float
thresholds. -/
theorem update_flow_state_code (m : FlowMode) (battery_kw : ℚ) :
    update_flow_state (some battery_kw) m.code = (spec_transition_f32 m battery_kw).code := by
  obtain ⟨t1, t2, t3, t4⟩ := threshold_values
  cases m <;>
    simp only [update_flow_state, spec_transition_f32, FlowMode.code, t1, t2, t3, t4] <;>
    split_ifs <;> first | rfl | contradiction

/-- The frame of a call with `battery_pct` known: clear, top row, percentage, flow icons,
then the battery bar. -/
theorem draw_screen_cmds_known (battery_pct : ℚ)
    (battery_kw solar_kw grid_kw reserve_pct : CFloat)
    (battery_flow_state : Int) (flow_animation_phase : ℚ) :
    (draw_screen (some battery_pct) battery_kw solar_kw grid_kw reserve_pct
        battery_flow_state flow_animation_phase).cmds
      = (DrawCmd.fill Color.COLOR_OFF
          :: draw_top_row (decide (update_flow_state battery_kw battery_flow_state = -1))
              (decide (update_flow_state battery_kw battery_flow_state = 1)) battery_kw
          ++ [DrawCmd.printf 0 16 Font.font_big TextAlign.TOP_LEFT "%.0f%%"
                (PrintArg.num (clamp_battery_pct battery_pct))]
          ++ draw_flow_icons (decide (update_flow_state battery_kw battery_flow_state = -1))
              (decide (update_flow_state battery_kw battery_flow_state = 1)) solar_kw grid_kw
              (advance_phase battery_kw flow_animation_phase))
        ++ draw_battery_bar (clamp_battery_pct battery_pct) (clamp_reserve_pct reserve_pct) := by
  simp [draw_screen]

/-- The frame of a call with `battery_pct` known ends with the reserve marker line and
the fill of the bar. -/
theorem marker_and_fill_end_frame (battery_pct : ℚ)
    (battery_kw solar_kw grid_kw reserve_pct : CFloat)
    (battery_flow_state : Int) (flow_animation_phase : ℚ) :
    (DrawCmd.line (reserve_marker_x (clamp_reserve_pct reserve_pct)) 56
          (reserve_marker_x (clamp_reserve_pct reserve_pct)) 63
        :: draw_bar_fill (filled_width (clamp_battery_pct battery_pct))
            (reserve_marker_x (clamp_reserve_pct reserve_pct)))
      <:+ (draw_screen (some battery_pct) battery_kw solar_kw grid_kw reserve_pct
            battery_flow_state flow_animation_phase).cmds := by
  rw [draw_screen_cmds_known]
  refine List.IsSuffix.trans ?_ (List.suffix_append _ _)
  unfold draw_battery_bar
  refine ⟨[DrawCmd.rectangle bar_left bar_top bar_width bar_height,
    DrawCmd.rectangle (bar_left + bar_width + 2) (bar_top + 2) 4 (bar_height - 4)], ?_⟩
  simp [bar_top, bar_height]

/-- The clamp of lines 30-31 is the specification's clamp to [0, 100]. -/
theorem clamp_battery_pct_bounds (battery_pct : ℚ) :
    clamp_battery_pct battery_pct = spec_clamp battery_pct 0 100
      ∧ 0 ≤ clamp_battery_pct battery_pct ∧ clamp_battery_pct battery_pct ≤ 100 := by
  simp only [clamp_battery_pct, spec_clamp]
  refine ⟨?_, ?_, ?_⟩ <;> split_ifs <;> first | rfl | linarith

/-- The clamp of lines 33-35 is the specification's clamp to [0, 100] of the value read,
20 for NaN. -/
theorem clamp_reserve_pct_bounds (reserve_pct : CFloat) :
    clamp_reserve_pct reserve_pct = spec_clamp (reserve_pct.getD 20.0) 0 100
      ∧ 0 ≤ clamp_reserve_pct reserve_pct ∧ clamp_reserve_pct reserve_pct ≤ 100 := by
  cases reserve_pct <;>
    simp only [clamp_reserve_pct, spec_clamp, Option.getD] <;>
    refine ⟨?_, ?_, ?_⟩ <;> split_ifs <;> first | rfl | linarith

/-- With enough fuel the loop of lines 181-183 draws one line per second column from `x`
up to the limit. -/
theorem hatch_loop_eq (fuel : Nat) : ∀ (x limit : Int), (limit - x).toNat ≤ fuel →
    hatch_loop fuel x limit
      = (spec_hatch_columns x limit).map (fun c => DrawCmd.line c 57 c 62) := by
  induction fuel with
  | zero =>
    intro x limit h
    have h0 : ((limit - x + 1) / 2).toNat = 0 := by omega
    simp [hatch_loop, spec_hatch_columns, h0]
  | succ n ih =>
    intro x limit h
    unfold hatch_loop
    split_ifs with hlt
    · rw [ih (x + 2) limit (by omega)]
      have h1 : ((limit - x + 1) / 2).toNat = ((limit - (x + 2) + 1) / 2).toNat + 1 := by
        omega
      simp only [spec_hatch_columns, h1, List.range_succ_eq_map, List.map_cons, List.map_map]
      simp only [bar_top, bar_height]
      norm_num
      intro a _
      ring
    · have h0 : ((limit - x + 1) / 2).toNat = 0 := by omega
      simp [spec_hatch_columns, h0]

/-- The hatch columns from 0 are the even columns below the limit. -/
theorem mem_spec_hatch_columns (limit col : Int) :
    col ∈ spec_hatch_columns 0 limit ↔ 0 ≤ col ∧ col < limit ∧ col % 2 = 0 := by
  simp only [spec_hatch_columns, List.mem_map, List.mem_range]
  constructor
  · rintro ⟨k, hk, rfl⟩
    omega
  · rintro ⟨h0, h1, h2⟩
    exact ⟨(col / 2).toNat, by omega, by omega⟩

/-- Lines 180-189 draw the specification's fill. -/
theorem draw_bar_fill_eq_spec (f r : Int) : draw_bar_fill f r = spec_bar_fill f r := by
  unfold draw_bar_fill spec_bar_fill
  simp only [bar_left, sub_zero, zero_add, add_sub_cancel_left]
  rw [hatch_loop_eq _ _ _ (by simp)]
  simp [bar_top, bar_height]

/-- Line 127 yields a factor between 0 and 1. -/
theorem speed_factor_bounds (battery_kw : CFloat) :
    0 ≤ speed_factor battery_kw ∧ speed_factor battery_kw ≤ 1 := by
  unfold speed_factor
  constructor
  · exact le_min (le_trans (by norm_num) (le_max_right _ _)) (by norm_num)
  · exact le_trans (min_le_right _ _) (by norm_num)

/-- The battery bar draws no text and nothing in the icon area. -/
theorem draw_battery_bar_filters (battery_pct reserve_pct : ℚ) :
    (draw_battery_bar battery_pct reserve_pct).filter is_text_cmd = []
      ∧ (draw_battery_bar battery_pct reserve_pct).filter is_icon_cmd = [] := by
  constructor <;>
  · rw [List.filter_eq_nil_iff]
    intro c hc
    simp only [draw_battery_bar, draw_bar_fill_eq_spec, spec_bar_fill, List.mem_append,
      List.mem_cons, List.mem_map, List.mem_singleton] at hc
    rcases hc with (rfl | rfl | rfl | hc) | ⟨x, _, rfl⟩ | hc
    · simp [is_text_cmd, is_icon_cmd]
    · simp [is_text_cmd, is_icon_cmd]
    · simp [is_text_cmd, is_icon_cmd, bar_top]
    · simp at hc
    · simp [is_text_cmd, is_icon_cmd]
    · split_ifs at hc
      · rw [List.mem_singleton] at hc
        subst hc
        simp [is_text_cmd, is_icon_cmd]
      · simp at hc

/-- Lines 148-163 draw the specification's icons of the flow state, stroke by stroke, with
the source of lines 97-103 and the marker of lines 140-141. -/
theorem draw_flow_icons_eq_spec (state : Int) (solar_kw grid_kw : CFloat) (phase : ℚ) :
    draw_flow_icons (decide (state = -1)) (decide (state = 1)) solar_kw grid_kw phase
      = spec_mode_icons state (spec_source_f32 grid_kw solar_kw)
          (flow_marker_y 26 (decide (state = 1)) phase) := by
  by_cases hc : state = -1
  · subst hc
    have hg : from_grid true grid_kw = known_above grid_kw source_threshold := by
      cases grid_kw <;> simp [from_grid, known_above, literal_values.1]
    have hsol : from_solar true solar_kw grid_kw
        = (!(known_above grid_kw source_threshold) && known_above solar_kw source_threshold) := by
      simp only [from_solar, hg]
      cases solar_kw <;> simp [known_above, literal_values.1]
    have d1 : decide ((-1 : Int) = -1) = true := by decide
    have d2 : decide ((-1 : Int) = 1) = false := by decide
    rw [d1, d2]
    simp only [draw_flow_icons, spec_mode_icons, hsol, hg, spec_source_f32]
    cases known_above grid_kw source_threshold <;>
      cases known_above solar_kw source_threshold <;>
      simp [spec_source_icon, spec_up_arrow, spec_track, draw_big_up_arrow, draw_big_sun,
        draw_big_bolt, thick_line, draw_flow_track]
  · by_cases hd : state = 1
    · subst hd
      simp [draw_flow_icons, spec_mode_icons, spec_down_arrow, spec_track,
        draw_big_down_arrow, thick_line, draw_flow_track]
    · simp [draw_flow_icons, spec_mode_icons, hc, hd]

/-- The icons of a flow state are commands of the icon area and none of them is text. -/
theorem spec_mode_icons_filters (state : Int) (source : PowerSource) (marker_y : Int) :
    (spec_mode_icons state source marker_y).filter is_text_cmd = []
      ∧ (spec_mode_icons state source marker_y).filter is_icon_cmd
          = spec_mode_icons state source marker_y := by
  unfold spec_mode_icons
  split_ifs <;> cases source <;>
    simp [spec_source_icon, spec_up_arrow, spec_down_arrow, spec_track, is_text_cmd,
      is_icon_cmd]

/-- The frame of a call with `battery_pct` known, in the specification's vocabulary. -/
theorem draw_screen_cmds_spec (battery_pct : ℚ)
    (battery_kw solar_kw grid_kw reserve_pct : CFloat)
    (battery_flow_state : Int) (flow_animation_phase : ℚ) :
    (draw_screen (some battery_pct) battery_kw solar_kw grid_kw reserve_pct
        battery_flow_state flow_animation_phase).cmds
      = [DrawCmd.fill Color.COLOR_OFF,
          DrawCmd.printf 0 0 Font.font_small TextAlign.TOP_LEFT "%s"
            (PrintArg.str (spec_mode_label
              (update_flow_state battery_kw battery_flow_state)))]
        ++ spec_power_text battery_kw
        ++ [DrawCmd.printf 0 16 Font.font_big TextAlign.TOP_LEFT "%.0f%%"
              (PrintArg.num (clamp_battery_pct battery_pct))]
        ++ spec_mode_icons (update_flow_state battery_kw battery_flow_state)
            (spec_source_f32 grid_kw solar_kw)
            (flow_marker_y 26 (decide (update_flow_state battery_kw battery_flow_state = 1))
              (advance_phase battery_kw flow_animation_phase))
        ++ draw_battery_bar (clamp_battery_pct battery_pct) (clamp_reserve_pct reserve_pct) := by
  have hl : mode_word (decide (update_flow_state battery_kw battery_flow_state = -1))
        (decide (update_flow_state battery_kw battery_flow_state = 1))
      = spec_mode_label (update_flow_state battery_kw battery_flow_state) := by
    unfold mode_word spec_mode_label
    by_cases hc : update_flow_state battery_kw battery_flow_state = -1
    · simp [hc]
    · by_cases hd : update_flow_state battery_kw battery_flow_state = 1
      · simp [hd]
      · simp [hc, hd]
  rw [draw_screen_cmds_known, draw_flow_icons_eq_spec]
  cases battery_kw <;> simp [draw_top_row, spec_power_text, hl]

/-- The commands of the icon area of a frame with `battery_pct` known. -/
theorem frame_icon_cmds (battery_pct : ℚ)
    (battery_kw solar_kw grid_kw reserve_pct : CFloat)
    (battery_flow_state : Int) (flow_animation_phase : ℚ) :
    (draw_screen (some battery_pct) battery_kw solar_kw grid_kw reserve_pct
        battery_flow_state flow_animation_phase).cmds.filter is_icon_cmd
      = spec_mode_icons (update_flow_state battery_kw battery_flow_state)
          (spec_source_f32 grid_kw solar_kw)
          (flow_marker_y 26 (decide (update_flow_state battery_kw battery_flow_state = 1))
            (advance_phase battery_kw flow_animation_phase)) := by
  rw [draw_screen_cmds_spec]
  simp only [List.filter_append, (draw_battery_bar_filters _ _).2,
    (spec_mode_icons_filters _ _ _).2, List.append_nil]
  cases battery_kw <;> simp [spec_power_text, is_icon_cmd]

/-! ### Rounding inside the routine -/

/-- A non-negative number below the power of two `b` rounds to a non-negative number at
most `err`, half a spacing at that exponent, away from it. -/
theorem f32_round_near (x b err : ℚ) (E : ℤ) (hE : -126 ≤ E) (hb : (2 : ℚ) ^ (E + 1) = b)
    (herr : (2 : ℚ) ^ (E - 24) = err) (h0 : 0 ≤ x) (h : x < b) :
    f32_round x - x ≤ err ∧ x - f32_round x ≤ err ∧ 0 ≤ f32_round x := by
  have he := f32_round_error x E hE (by rw [abs_of_nonneg h0, hb]; exact h)
  rw [herr] at he
  obtain ⟨l, u⟩ := abs_le.mp he
  exact ⟨u, by linarith, f32_round_nonneg x h0⟩

/-- The advance of line 130 lies between 0.019 and 0.161. -/
theorem advance_term_bounds (battery_kw : CFloat) :
    19 / 1000 ≤ f32_add (f32_round 0.020) (f32_mul (f32_round 0.14) (speed_factor battery_kw))
      ∧ f32_add (f32_round 0.020) (f32_mul (f32_round 0.14) (speed_factor battery_kw))
          ≤ 161 / 1000 := by
  obtain ⟨hs0, hs1⟩ := speed_factor_bounds battery_kw
  obtain ⟨_, l20, l14⟩ := literal_values
  rw [l20, l14]
  unfold f32_add f32_mul
  obtain ⟨m1, m2, m3⟩ := f32_round_near (9395241 / 67108864 * speed_factor battery_kw)
    (1 / 4) (1 / 134217728) (-3) (by norm_num) (by norm_num) (by norm_num)
    (by positivity) (by nlinarith)
  obtain ⟨a1, a2, _⟩ := f32_round_near
    (5368709 / 268435456 + f32_round (9395241 / 67108864 * speed_factor battery_kw))
    (1 / 4) (1 / 134217728) (-3) (by norm_num) (by norm_num) (by norm_num)
    (by positivity) (by nlinarith)
  constructor <;> nlinarith

/-- From a phase in [0, 1] lines 130-131 give a phase in (0, 1], which is 1 only when the
rounded sum of line 130 is 1. -/
theorem advance_phase_bounds (battery_kw : CFloat) (flow_animation_phase : ℚ)
    (h0 : 0 ≤ flow_animation_phase) (h1 : flow_animation_phase ≤ 1) :
    0 < advance_phase battery_kw flow_animation_phase
      ∧ advance_phase battery_kw flow_animation_phase ≤ 1
      ∧ (advance_phase battery_kw flow_animation_phase = 1
          ↔ f32_add flow_animation_phase
              (f32_add (f32_round 0.020) (f32_mul (f32_round 0.14) (speed_factor battery_kw)))
            = 1) := by
  obtain ⟨t0, t1⟩ := advance_term_bounds battery_kw
  simp only [advance_phase]
  set a : ℚ := f32_add (f32_round 0.020) (f32_mul (f32_round 0.14) (speed_factor battery_kw))
    with ha
  unfold f32_add
  obtain ⟨p1, p2, p3⟩ := f32_round_near (flow_animation_phase + a) 2 (1 / 16777216) 0
    (by norm_num) (by norm_num) (by norm_num) (by linarith) (by linarith)
  split_ifs with hw
  · have hw1 : (1 : ℚ) < f32_round (flow_animation_phase + a) := by
      have e : (1.0 : ℚ) = 1 := by norm_num
      rw [e] at hw
      exact hw
    have hz : 1 ≤ flow_animation_phase + a := by
      by_contra hlt
      have := f32_round_le_one (flow_animation_phase + a) (by linarith) (not_le.mp hlt)
      linarith
    obtain ⟨k, hk⟩ := f32_round_grid_one (flow_animation_phase + a) hz (by linarith)
    have hk1 : (8388608 : ℚ) < (k : ℚ) := by
      rw [hk] at hw1
      have := (lt_div_iff₀ (by norm_num : (0 : ℚ) < 8388608)).mp hw1
      linarith
    have hk2 : (8388608 : ℤ) < k := by exact_mod_cast hk1
    have hk3 : (8388609 : ℚ) ≤ (k : ℚ) := by exact_mod_cast (show (8388609 : ℤ) ≤ k by omega)
    have hd : 1 / 8388608 ≤ f32_round (flow_animation_phase + a) - 1 := by
      rw [hk]
      have : (8388609 : ℚ) / 8388608 ≤ (k : ℚ) / 8388608 :=
        div_le_div_of_nonneg_right hk3 (by norm_num)
      linarith
    have e1 : (1.0 : ℚ) = 1 := by norm_num
    unfold f32_sub
    rw [e1]
    obtain ⟨w1, w2, w3⟩ := f32_round_near (f32_round (flow_animation_phase + a) - 1)
      (1 / 4) (1 / 134217728) (-3) (by norm_num) (by norm_num) (by norm_num)
      (by linarith) (by linarith)
    refine ⟨by linarith, by linarith, ?_⟩
    constructor
    · intro h; exfalso; linarith
    · intro h; exfalso; linarith
  · have hw1 : f32_round (flow_animation_phase + a) ≤ 1 := by
      have e : (1.0 : ℚ) = 1 := by norm_num
      rw [e] at hw
      exact not_lt.mp hw
    exact ⟨by linarith, hw1, Iff.rfl⟩

/-- For a phase in [0, 1] the marker of lines 140-141 under `y_top` = 26 is 28 plus the
floor of the rounded product, lies between 28 and 50, and is at most one pixel away from
`28 + floor(t * 22)` computed exactly. -/
theorem flow_marker_y_bounds (flow_downward : Bool) (phase : ℚ)
    (h0 : 0 ≤ phase) (h1 : phase ≤ 1) :
    flow_marker_y 26 flow_downward phase
        = 28 + ⌊f32_round ((if flow_downward then phase else f32_round (1 - phase)) * 22)⌋
      ∧ 28 ≤ flow_marker_y 26 flow_downward phase
      ∧ flow_marker_y 26 flow_downward phase ≤ 50
      ∧ |flow_marker_y 26 flow_downward phase
          - (28 + ⌊(if flow_downward then phase else 1 - phase) * 22⌋)| ≤ 1 := by
  have key : ∀ t texact : ℚ, 0 ≤ t → t ≤ 1 + 1 / 16777216 → |t - texact| ≤ 1 / 16777216 →
      to_int (f32_round (t * 22)) = ⌊f32_round (t * 22)⌋
        ∧ 0 ≤ ⌊f32_round (t * 22)⌋ ∧ ⌊f32_round (t * 22)⌋ ≤ 22
        ∧ |⌊f32_round (t * 22)⌋ - ⌊texact * 22⌋| ≤ 1 := by
    intro t texact ht0 ht1 hte
    obtain ⟨r1, r2, r3⟩ := f32_round_near (t * 22) 32 (1 / 1048576) 4
      (by norm_num) (by norm_num) (by norm_num) (by positivity) (by linarith)
    obtain ⟨e1, e2⟩ := abs_le.mp hte
    refine ⟨by rw [to_int, if_pos r3], Int.floor_nonneg.mpr r3, ?_, ?_⟩
    · have hlt : f32_round (t * 22) < ((23 : ℤ) : ℚ) := by push_cast; linarith
      have := Int.floor_lt.mpr hlt
      omega
    · apply floor_near
      rw [abs_lt]
      constructor <;> linarith
  cases flow_downward with
  | true =>
    obtain ⟨e, l, u, n⟩ := key phase phase h0 (by linarith) (by simp)
    have hy : flow_marker_y 26 true phase = 28 + ⌊f32_round (phase * 22)⌋ := by
      simp only [flow_marker_y, if_true, f32_mul]
      push_cast
      rw [e]
    simp only [if_true]
    refine ⟨hy, by omega, by omega, ?_⟩
    rw [hy]
    have : (28 + ⌊f32_round (phase * 22)⌋ - (28 + ⌊phase * 22⌋))
        = ⌊f32_round (phase * 22)⌋ - ⌊phase * 22⌋ := by ring
    rw [this]
    exact n
  | false =>
    obtain ⟨s1, s2, s3⟩ := f32_round_near (1 - phase) 2 (1 / 16777216) 0
      (by norm_num) (by norm_num) (by norm_num) (by linarith) (by linarith)
    obtain ⟨e, l, u, n⟩ := key (f32_round (1 - phase)) (1 - phase) s3 (by linarith)
      (abs_le.mpr ⟨by linarith, by linarith⟩)
    have hy : flow_marker_y 26 false phase
        = 28 + ⌊f32_round (f32_round (1 - phase) * 22)⌋ := by
      have e1 : ((1.0 : ℚ) - phase) = 1 - phase := by norm_num
      simp only [flow_marker_y, Bool.false_eq_true, if_false, f32_mul, f32_sub, e1]
      push_cast
      rw [e]
    simp only [Bool.false_eq_true, if_false]
    refine ⟨hy, by omega, by omega, ?_⟩
    rw [hy]
    have : (28 + ⌊f32_round (f32_round (1 - phase) * 22)⌋ - (28 + ⌊(1 - phase) * 22⌋))
        = ⌊f32_round (f32_round (1 - phase) * 22)⌋ - ⌊(1 - phase) * 22⌋ := by ring
    rw [this]
    exact n

/-- Lambda `draw_flow_track` under `y_top` = 26: track from 28 to 50, marker, end dots. -/
theorem draw_flow_track_at_26 (phase : ℚ) (x : Int) (flow_downward : Bool) :
    draw_flow_track phase x 26 flow_downward
      = spec_track x (flow_marker_y 26 flow_downward phase) := by
  simp only [draw_flow_track, spec_track]
  norm_num

/-- On a percentage in [0, 100] the product of lines 171 and 174 is non-negative, below
117 and less than 1 away from the exact `q / 100 * 116`, and it is exact at 0 and 100. -/
theorem scaled_product_near (q : ℚ) (h0 : 0 ≤ q) (h1 : q ≤ 100) :
    0 ≤ f32_mul (f32_div q 100.0) bar_width
      ∧ f32_mul (f32_div q 100.0) bar_width < 117
      ∧ |f32_mul (f32_div q 100.0) bar_width - q / 100 * 116| < 1 := by
  have e100 : (100.0 : ℚ) = 100 := by norm_num
  unfold f32_mul f32_div bar_width
  rw [e100]
  push_cast
  obtain ⟨d1, d2, d3⟩ := f32_round_near (q / 100) 2 (1 / 16777216) 0
    (by norm_num) (by norm_num) (by norm_num) (by positivity)
    (by rw [div_lt_iff₀ (by norm_num)]; linarith)
  have hq : q / 100 ≤ 1 := by rw [div_le_iff₀ (by norm_num)]; linarith
  obtain ⟨m1, m2, m3⟩ := f32_round_near (f32_round (q / 100) * 116) 128 (1 / 262144) 6
    (by norm_num) (by norm_num) (by norm_num) (by positivity) (by linarith)
  refine ⟨m3, by linarith, ?_⟩
  rw [abs_lt]
  constructor <;> linarith

/-! ### The claims -/

/-- C1, as the specification states it, fails: the float `0.03f` = 16106127/536870912 is
below 0.03, so the table of the specification sends Discharging to Idle on it, while line
90 compares with `0.03f` itself and the routine stays Discharging. -/
theorem transition_table_fails_at_exit_float :
    f32_round (16106127 / 536870912) = 16106127 / 536870912
      ∧ (16106127 / 536870912 : ℚ) < 0.03
      ∧ spec_transition FlowMode.Discharging (16106127 / 536870912) = FlowMode.Idle
      ∧ (draw_screen (some 50) (some (16106127 / 536870912)) none none none
          FlowMode.Discharging.code 0).battery_flow_state = FlowMode.Discharging.code
      ∧ FlowMode.Discharging.code ≠ FlowMode.Idle.code := by
  refine ⟨?_, by norm_num, by norm_num [spec_transition], ?_, by decide⟩
  · rw [f32_round_of_exponent _ (-6) (by norm_num) (by norm_num) (Or.inl (by norm_num))
      (by norm_num)]
    norm_num [round_half_even]
  · simp only [draw_screen, update_flow_state_code]
    norm_num [spec_transition_f32, exit_threshold]

/-- C1, amended: with `battery_pct` and `battery_kw` known and the prior flow state one of
Idle(0), Charging(-1), Discharging(+1), the flow state after `draw_screen` is the one of
the transition table with the float thresholds `0.08f` = 5368709/67108864 and `0.03f` =
16106127/536870912; that table gives the mode of the specification's decimal table for
every reading outside the four gaps between a float threshold and its decimal. -/
theorem flow_state_follows_float_table (battery_pct battery_kw : ℚ)
    (solar_kw grid_kw reserve_pct : CFloat) (m : FlowMode) (flow_animation_phase : ℚ) :
    (draw_screen (some battery_pct) (some battery_kw) solar_kw grid_kw reserve_pct
        m.code flow_animation_phase).battery_flow_state
        = (spec_transition_f32 m battery_kw).code
      ∧ (spec_transition_f32 m battery_kw = spec_transition m battery_kw
          ∨ in_threshold_gap battery_kw) := by
  refine ⟨update_flow_state_code m battery_kw, ?_⟩
  by_cases hg : in_threshold_gap battery_kw
  · exact Or.inr hg
  · left
    unfold in_threshold_gap at hg
    simp only [not_or, not_and, not_lt, not_le] at hg
    obtain ⟨g1, g2, g3, g4⟩ := hg
    have i1 : battery_kw ≤ -enter_threshold ↔ battery_kw ≤ -0.08 := by
      constructor
      · intro h
        by_contra hc
        have := g2 (not_le.mp hc)
        linarith
      · intro h
        unfold enter_threshold
        linarith
    have i2 : battery_kw ≥ enter_threshold ↔ battery_kw ≥ 0.08 := by
      constructor
      · intro h
        exact g1 h
      · intro h
        unfold enter_threshold
        linarith
    have i3 : battery_kw > -exit_threshold ↔ battery_kw > -0.03 := by
      constructor
      · intro h
        unfold exit_threshold at h
        linarith
      · intro h
        exact g4 h
    have i4 : battery_kw < exit_threshold ↔ battery_kw < 0.03 := by
      constructor
      · intro h
        unfold exit_threshold at h
        linarith
      · intro h
        by_contra hc
        have := g3 (not_lt.mp hc)
        linarith
    cases m <;> simp only [spec_transition_f32, spec_transition, i1, i2, i3, i4]

/-- C2, as the specification states it, fails: the float `0.08f` = 5368709/67108864 is
inside the dead band -0.08 < battery_kw < 0.08 of Idle, but line 86 compares with `0.08f`
itself and the routine leaves Idle for Discharging. -/
theorem dead_band_fails_at_enter_float :
    f32_round (5368709 / 67108864) = 5368709 / 67108864
      ∧ in_dead_band FlowMode.Idle (5368709 / 67108864)
      ∧ (draw_screen (some 50) (some (5368709 / 67108864)) none none none
          FlowMode.Idle.code 0).battery_flow_state = FlowMode.Discharging.code
      ∧ FlowMode.Discharging.code ≠ FlowMode.Idle.code := by
  refine ⟨?_, by norm_num [in_dead_band], ?_, by decide⟩
  · rw [f32_round_of_exponent _ (-4) (by norm_num) (by norm_num) (Or.inl (by norm_num))
      (by norm_num)]
    norm_num [round_half_even]
  · simp only [draw_screen, update_flow_state_code]
    norm_num [spec_transition_f32, enter_threshold]

/-- C2, amended: a reading inside the dead band bounded by the float thresholds leaves the
flow state as it is (Discharging holds for `battery_kw >= 0.03f`, Charging for
`battery_kw <= -0.03f`, Idle for `-0.08f < battery_kw < 0.08f`); and from Idle the float
readings 0.05f, 0.09f, 0.04f give the states Idle, Discharging, Discharging. -/
theorem hysteresis_hold (battery_pct battery_kw : ℚ)
    (solar_kw grid_kw reserve_pct : CFloat) (m : FlowMode) (flow_animation_phase : ℚ)
    (h : in_dead_band_f32 m battery_kw) :
    (draw_screen (some battery_pct) (some battery_kw) solar_kw grid_kw reserve_pct
        m.code flow_animation_phase).battery_flow_state = m.code
      ∧ flow_states_after (some battery_pct) solar_kw grid_kw reserve_pct
          [some (f32_round 0.05), some (f32_round 0.09), some (f32_round 0.04)]
          FlowMode.Idle.code flow_animation_phase
        = [FlowMode.Idle.code, FlowMode.Discharging.code, FlowMode.Discharging.code] := by
  constructor
  · simp only [draw_screen, update_flow_state_code]
    cases m <;> simp only [in_dead_band_f32] at h <;>
      simp only [spec_transition_f32] <;>
      split_ifs <;> first | rfl | (exfalso; linarith [h.1, h.2]) | (exfalso; linarith)
  · obtain ⟨a1, a2, _⟩ := f32_round_near 0.05 (1 / 16) (1 / 536870912) (-5)
      (by norm_num) (by norm_num) (by norm_num) (by norm_num) (by norm_num)
    obtain ⟨b1, b2, _⟩ := f32_round_near 0.09 (1 / 8) (1 / 268435456) (-4)
      (by norm_num) (by norm_num) (by norm_num) (by norm_num) (by norm_num)
    obtain ⟨c1, c2, _⟩ := f32_round_near 0.04 (1 / 16) (1 / 536870912) (-5)
      (by norm_num) (by norm_num) (by norm_num) (by norm_num) (by norm_num)
    have s1 : spec_transition_f32 FlowMode.Idle (f32_round 0.05) = FlowMode.Idle := by
      simp only [spec_transition_f32, enter_threshold]
      rw [if_neg (by linarith), if_neg (by linarith)]
    have s2 : spec_transition_f32 FlowMode.Idle (f32_round 0.09) = FlowMode.Discharging := by
      simp only [spec_transition_f32, enter_threshold]
      rw [if_neg (by linarith), if_pos (by linarith)]
    have s3 : spec_transition_f32 FlowMode.Discharging (f32_round 0.04)
        = FlowMode.Discharging := by
      simp only [spec_transition_f32, exit_threshold]
      rw [if_neg (by linarith)]
    simp only [flow_states_after, draw_screen, update_flow_state_code, s1, s2, s3]

/-- Witness of the amended C2: Discharging at the float reading 0.04f. -/
theorem hysteresis_hold_witness :
    in_dead_band_f32 FlowMode.Discharging (5368709 / 134217728)
      ∧ (draw_screen (some 50) (some (5368709 / 134217728)) none none none 1 0).battery_flow_state
          = 1 :=
  ⟨by norm_num [in_dead_band_f32, exit_threshold],
    (hysteresis_hold 50 (5368709 / 134217728) none none none FlowMode.Discharging 0
      (by norm_num [in_dead_band_f32, exit_threshold])).1⟩

/-- C3: when `battery_pct` is NaN, whatever the other inputs and the state,
`draw_screen` emits exactly the clear, the text "--%" in the big font and
"Waiting for data" in the small font, and returns the flow state and the phase as
they came in. -/
theorem waiting_frame_when_battery_pct_unknown
    (battery_kw solar_kw grid_kw reserve_pct : CFloat)
    (battery_flow_state : Int) (flow_animation_phase : ℚ) :
    draw_screen none battery_kw solar_kw grid_kw reserve_pct
        battery_flow_state flow_animation_phase
      = { cmds :=
            [ DrawCmd.fill Color.COLOR_OFF,
              DrawCmd.printf 0 18 Font.font_big TextAlign.TOP_LEFT "--%%" PrintArg.none,
              DrawCmd.printf 0 54 Font.font_small TextAlign.TOP_LEFT "Waiting for data"
                PrintArg.none ],
          battery_flow_state := battery_flow_state,
          flow_animation_phase := flow_animation_phase }
      ∧ printed_text "--%%" = "--%"
      ∧ printed_text "Waiting for data" = "Waiting for data" := by
  refine ⟨rfl, ?_, ?_⟩ <;> decide

/-- C10: when `battery_kw` is NaN and `battery_pct` is known, `draw_screen` returns the flow
state it was given, whatever `solar_kw`, `grid_kw`, `reserve_pct` and the phase are. -/
theorem flow_state_holds_when_battery_kw_unknown (battery_pct : ℚ)
    (solar_kw grid_kw reserve_pct : CFloat)
    (battery_flow_state : Int) (flow_animation_phase : ℚ) :
    (draw_screen (some battery_pct) none solar_kw grid_kw reserve_pct
        battery_flow_state flow_animation_phase).battery_flow_state = battery_flow_state := by
  rfl

/-- C15: for every input, `battery_pct` unknown or known, and every prior state, the
frame starts with the clear of the whole surface to the off colour; everything else is
drawn after it. -/
theorem clear_comes_first (battery_pct battery_kw solar_kw grid_kw reserve_pct : CFloat)
    (battery_flow_state : Int) (flow_animation_phase : ℚ) :
    (draw_screen battery_pct battery_kw solar_kw grid_kw reserve_pct
        battery_flow_state flow_animation_phase).cmds.head?
        = some (DrawCmd.fill Color.COLOR_OFF)
      ∧ ∃ rest : List DrawCmd,
          (draw_screen battery_pct battery_kw solar_kw grid_kw reserve_pct
            battery_flow_state flow_animation_phase).cmds
            = DrawCmd.fill Color.COLOR_OFF :: rest
          ∧ rest ≠ [] := by
  cases battery_pct with
  | none => exact ⟨rfl, _, rfl, by simp [draw_waiting]⟩
  | some p => exact ⟨rfl, _, rfl, by simp [draw_top_row]⟩

/-- C16: for every input, a flow state among -1, 0, +1 before the call is among -1, 0, +1
after the call. -/
theorem flow_state_stays_defined (battery_pct battery_kw solar_kw grid_kw reserve_pct : CFloat)
    (battery_flow_state : Int) (flow_animation_phase : ℚ)
    (h : battery_flow_state = -1 ∨ battery_flow_state = 0 ∨ battery_flow_state = 1) :
    (draw_screen battery_pct battery_kw solar_kw grid_kw reserve_pct
        battery_flow_state flow_animation_phase).battery_flow_state = -1
      ∨ (draw_screen battery_pct battery_kw solar_kw grid_kw reserve_pct
          battery_flow_state flow_animation_phase).battery_flow_state = 0
      ∨ (draw_screen battery_pct battery_kw solar_kw grid_kw reserve_pct
          battery_flow_state flow_animation_phase).battery_flow_state = 1 := by
  cases battery_pct with
  | none => exact h
  | some p =>
    cases battery_kw with
    | none => exact h
    | some kw =>
      simp only [draw_screen, update_flow_state]
      rcases h with h | h | h <;> subst h <;> split_ifs <;> simp

/-- Witness of C16: the reading 0.5 kW from Idle. -/
theorem flow_state_stays_defined_witness :
    ((0 : Int) = -1 ∨ (0 : Int) = 0 ∨ (0 : Int) = 1)
      ∧ ((draw_screen (some 50) (some 0.5) none none none 0 0).battery_flow_state = -1
        ∨ (draw_screen (some 50) (some 0.5) none none none 0 0).battery_flow_state = 0
        ∨ (draw_screen (some 50) (some 0.5) none none none 0 0).battery_flow_state = 1) :=
  ⟨by decide,
    flow_state_stays_defined (some 50) (some 0.5) none none none 0 0 (by decide)⟩

/-- C12: with `battery_pct` known, the text of the frame is, in order, the left-aligned
label of the flow state after this call ("Charging", "Discharging" or "Idle"), the
right-aligned power text of `battery_kw` only if `battery_kw` is known, and the percentage;
the label follows the state after the transition: from Idle the reading 1 kW is labelled
"Discharging"; with `battery_kw` unknown the only texts are the label and the percentage. -/
theorem top_row_label_and_power (battery_pct : ℚ)
    (battery_kw solar_kw grid_kw reserve_pct : CFloat)
    (battery_flow_state : Int) (flow_animation_phase : ℚ) :
    (draw_screen (some battery_pct) battery_kw solar_kw grid_kw reserve_pct
        battery_flow_state flow_animation_phase).cmds.filter is_text_cmd
        = [DrawCmd.printf 0 0 Font.font_small TextAlign.TOP_LEFT "%s"
            (PrintArg.str (spec_mode_label
              (draw_screen (some battery_pct) battery_kw solar_kw grid_kw reserve_pct
                battery_flow_state flow_animation_phase).battery_flow_state))]
          ++ spec_power_text battery_kw
          ++ [DrawCmd.printf 0 16 Font.font_big TextAlign.TOP_LEFT "%.0f%%"
                (PrintArg.num (clamp_battery_pct battery_pct))]
      ∧ (draw_screen (some battery_pct) (some 1) solar_kw grid_kw reserve_pct
          0 flow_animation_phase).cmds.filter is_text_cmd
          = [DrawCmd.printf 0 0 Font.font_small TextAlign.TOP_LEFT "%s"
              (PrintArg.str "Discharging"),
             DrawCmd.printf 128 0 Font.font_small TextAlign.TOP_RIGHT "%.1f kW"
              (PrintArg.num 1),
             DrawCmd.printf 0 16 Font.font_big TextAlign.TOP_LEFT "%.0f%%"
              (PrintArg.num (clamp_battery_pct battery_pct))]
      ∧ (draw_screen (some battery_pct) none solar_kw grid_kw reserve_pct
          battery_flow_state flow_animation_phase).cmds.filter is_text_cmd
          = [DrawCmd.printf 0 0 Font.font_small TextAlign.TOP_LEFT "%s"
              (PrintArg.str (spec_mode_label battery_flow_state)),
             DrawCmd.printf 0 16 Font.font_big TextAlign.TOP_LEFT "%.0f%%"
              (PrintArg.num (clamp_battery_pct battery_pct))] := by
  have key : ∀ (kw : CFloat) (s : Int),
      (draw_screen (some battery_pct) kw solar_kw grid_kw reserve_pct
          s flow_animation_phase).cmds.filter is_text_cmd
        = [DrawCmd.printf 0 0 Font.font_small TextAlign.TOP_LEFT "%s"
            (PrintArg.str (spec_mode_label (update_flow_state kw s)))]
          ++ spec_power_text kw
          ++ [DrawCmd.printf 0 16 Font.font_big TextAlign.TOP_LEFT "%.0f%%"
                (PrintArg.num (clamp_battery_pct battery_pct))] := by
    intro kw s
    rw [draw_screen_cmds_spec]
    simp only [List.filter_append, (draw_battery_bar_filters _ _).1,
      (spec_mode_icons_filters _ _ _).1, List.append_nil]
    cases kw <;> simp [spec_power_text, is_text_cmd]
  refine ⟨key _ _, ?_, ?_⟩
  · rw [key]
    have hs : update_flow_state (some 1) 0 = 1 := by
      have hc := update_flow_state_code FlowMode.Idle 1
      simp only [FlowMode.code] at hc
      rw [hc]
      norm_num [spec_transition_f32, FlowMode.code, enter_threshold]
    rw [hs]
    simp [spec_power_text, spec_mode_label]
  · rw [key]
    simp [spec_power_text, update_flow_state]

/-- C7: with `f` the filled width and `r` the offset of the reserve marker from the bar
start, the frame ends with the fill of the bar, which is one vertical line on each even
column `0 <= x < min f r`, followed by one filled rectangle over the columns `r <= x < f`
if and only if `f > r`; the fill paints exactly those columns, and none at or beyond `f`. -/
theorem bar_fill_hatched_then_solid (battery_pct : ℚ)
    (battery_kw solar_kw grid_kw reserve_pct : CFloat)
    (battery_flow_state : Int) (flow_animation_phase : ℚ) :
    ∃ f r : Int, f = filled_width (clamp_battery_pct battery_pct)
      ∧ r = reserve_marker_x (clamp_reserve_pct reserve_pct) - bar_left
      ∧ ((spec_hatch_columns 0 (min f r)).map (fun c => DrawCmd.line c 57 c 62)
            ++ (if f > r then [DrawCmd.filled_rectangle r 57 (f - r) 6] else []))
          <:+ (draw_screen (some battery_pct) battery_kw solar_kw grid_kw reserve_pct
                battery_flow_state flow_animation_phase).cmds
      ∧ draw_bar_fill f (bar_left + r)
          = (spec_hatch_columns 0 (min f r)).map (fun c => DrawCmd.line c 57 c 62)
            ++ (if f > r then [DrawCmd.filled_rectangle r 57 (f - r) 6] else [])
      ∧ (∀ col : Int, col ∈ spec_hatch_columns 0 (min f r)
          ↔ 0 ≤ col ∧ col < min f r ∧ col % 2 = 0)
      ∧ (∀ col : Int, (∃ c ∈ draw_bar_fill f (bar_left + r), fill_covers c col)
          ↔ (0 ≤ col ∧ col < min f r ∧ col % 2 = 0) ∨ (r ≤ col ∧ col < f))
      ∧ (∀ col : Int, f ≤ col → ¬ ∃ c ∈ draw_bar_fill f (bar_left + r), fill_covers c col) := by
  have hsuf := List.IsSuffix.trans (List.suffix_cons _ _)
    (marker_and_fill_end_frame battery_pct battery_kw solar_kw grid_kw reserve_pct
      battery_flow_state flow_animation_phase)
  have hcov : ∀ (f r col : Int), (∃ c ∈ draw_bar_fill f r, fill_covers c col)
      ↔ (0 ≤ col ∧ col < min f r ∧ col % 2 = 0) ∨ (r ≤ col ∧ col < f) := by
    intro f r col
    rw [draw_bar_fill_eq_spec]
    unfold spec_bar_fill
    constructor
    · rintro ⟨c, hc, hcol⟩
      rcases List.mem_append.mp hc with hc | hc
      · obtain ⟨x, hx, rfl⟩ := List.mem_map.mp hc
        simp only [fill_covers] at hcol
        rw [← hcol.1]
        exact Or.inl ((mem_spec_hatch_columns _ _).mp hx)
      · split_ifs at hc with hfr
        · rw [List.mem_singleton] at hc
          subst hc
          simp only [fill_covers] at hcol
          exact Or.inr ⟨hcol.1, by omega⟩
        · simp at hc
    · rintro (h | h)
      · exact ⟨DrawCmd.line col 57 col 62,
          List.mem_append.mpr (Or.inl (List.mem_map.mpr
            ⟨col, (mem_spec_hatch_columns _ _).mpr h, rfl⟩)),
          by simp [fill_covers]⟩
      · have hfr : f > r := by omega
        refine ⟨DrawCmd.filled_rectangle r 57 (f - r) 6, ?_, ?_⟩
        · rw [if_pos hfr]
          exact List.mem_append.mpr (Or.inr (List.mem_singleton.mpr rfl))
        · simp only [fill_covers]
          omega
  refine ⟨_, _, rfl, rfl, ?_, ?_, ?_, ?_, ?_⟩
  · simp only [bar_left, sub_zero]
    have e := draw_bar_fill_eq_spec (filled_width (clamp_battery_pct battery_pct))
      (reserve_marker_x (clamp_reserve_pct reserve_pct))
    unfold spec_bar_fill at e
    rw [← e]
    exact hsuf
  · simp only [bar_left, sub_zero, zero_add]
    exact draw_bar_fill_eq_spec _ _
  · exact fun col => mem_spec_hatch_columns _ col
  · intro col
    simp only [bar_left, sub_zero, zero_add]
    exact hcov _ _ col
  · intro col hcol hex
    simp only [bar_left, sub_zero, zero_add] at hex
    rcases (hcov _ _ col).mp hex with h | h
    · have := min_le_left (filled_width (clamp_battery_pct battery_pct))
        (reserve_marker_x (clamp_reserve_pct reserve_pct))
      omega
    · omega

/-- With `battery_kw` unknown the speed factor is 0 and the advance is the float `0.020f`. -/
theorem advance_term_unknown :
    speed_factor none = 0
      ∧ f32_add (f32_round 0.020) (f32_mul (f32_round 0.14) (speed_factor none))
          = 5368709 / 268435456 := by
  have hsf : speed_factor none = 0 := by
    simp only [speed_factor, abs_battery_kw, f32_div, kMaxKwForSpeed]
    rw [show (0.0 : ℚ) / 3.0 = 0 by norm_num, exact_literals.1]
    norm_num
  refine ⟨hsf, ?_⟩
  rw [hsf, f32_mul, mul_zero, exact_literals.1, f32_add, add_zero, literal_values.2.1,
    f32_round_of_exponent _ (-6) (by norm_num) (by norm_num) (Or.inl (by norm_num))
      (by norm_num)]
  norm_num [round_half_even]

/-- C4, as the specification states it, fails: from the float phase 0.98f =
2055209/2097152 one call with `battery_kw` unknown adds `0.020f`; the exact sum
268435461/268435456 rounds to 1.0, which line 131 does not wrap. -/
theorem phase_reaches_one :
    f32_round (2055209 / 2097152) = 2055209 / 2097152
      ∧ ((0 : ℚ) ≤ 2055209 / 2097152 ∧ (2055209 / 2097152 : ℚ) < 1)
      ∧ (draw_screen (some 50) none none none none 0
          (2055209 / 2097152)).flow_animation_phase = 1
      ∧ ¬ (0 ≤ (draw_screen (some 50) none none none none 0
              (2055209 / 2097152)).flow_animation_phase
            ∧ (draw_screen (some 50) none none none none 0
              (2055209 / 2097152)).flow_animation_phase < 1) := by
  have hp : f32_add (2055209 / 2097152) (5368709 / 268435456) = 1 := by
    rw [f32_add, f32_round_of_exponent _ 0 (by norm_num) (by norm_num) (Or.inl (by norm_num))
      (by norm_num)]
    norm_num [round_half_even]
  have h : (draw_screen (some 50) none none none none 0
      (2055209 / 2097152)).flow_animation_phase = 1 := by
    simp only [draw_screen, advance_phase, advance_term_unknown.2, hp]
    norm_num
  refine ⟨?_, by norm_num, h, ?_⟩
  · rw [f32_round_of_exponent _ (-1) (by norm_num) (by norm_num) (Or.inl (by norm_num))
      (by norm_num)]
    norm_num [round_half_even]
  · rw [h]
    norm_num

/-- C4, amended: with `battery_pct` known, every `battery_kw` and a phase in [0, 1]
before the call, the phase after the call is in (0, 1]; it is 1 exactly when the rounded
sum of line 130, the phase before plus the advance, is 1, and below 1 otherwise. -/
theorem phase_stays_in_unit_interval (battery_pct : ℚ)
    (battery_kw solar_kw grid_kw reserve_pct : CFloat)
    (battery_flow_state : Int) (flow_animation_phase : ℚ)
    (h0 : 0 ≤ flow_animation_phase) (h1 : flow_animation_phase ≤ 1) :
    0 < (draw_screen (some battery_pct) battery_kw solar_kw grid_kw reserve_pct
          battery_flow_state flow_animation_phase).flow_animation_phase
      ∧ (draw_screen (some battery_pct) battery_kw solar_kw grid_kw reserve_pct
          battery_flow_state flow_animation_phase).flow_animation_phase ≤ 1
      ∧ ((draw_screen (some battery_pct) battery_kw solar_kw grid_kw reserve_pct
            battery_flow_state flow_animation_phase).flow_animation_phase = 1
          ↔ f32_add flow_animation_phase
              (f32_add (f32_round 0.020) (f32_mul (f32_round 0.14) (speed_factor battery_kw)))
            = 1) :=
  advance_phase_bounds battery_kw flow_animation_phase h0 h1

/-- Witness of the amended C4: from the phase 0.5 with `battery_kw` = 1.5. -/
theorem phase_stays_in_unit_interval_witness :
    ((0 : ℚ) ≤ 0.5 ∧ (0.5 : ℚ) ≤ 1)
      ∧ 0 < (draw_screen (some 50) (some 1.5) none none none 0 0.5).flow_animation_phase
      ∧ (draw_screen (some 50) (some 1.5) none none none 0 0.5).flow_animation_phase ≤ 1 :=
  ⟨⟨by norm_num, by norm_num⟩,
    (phase_stays_in_unit_interval 50 (some 1.5) none none none 0 0.5
      (by norm_num) (by norm_num)).1,
    (phase_stays_in_unit_interval 50 (some 1.5) none none none 0 0.5
      (by norm_num) (by norm_num)).2.1⟩

/-- On a percentage in [0, 100] lines 171-172 and lines 174-175 give the floor of the
rounded product, between 0 and 116 and at most one pixel away from
`floor(q / 100 * 116)`. -/
theorem scaled_width_near (q : ℚ) (h0 : 0 ≤ q) (h1 : q ≤ 100) :
    filled_width q = ⌊f32_round (f32_round (q / 100) * 116)⌋
      ∧ reserve_marker_x q = ⌊f32_round (f32_round (q / 100) * 116)⌋
      ∧ 0 ≤ ⌊f32_round (f32_round (q / 100) * 116)⌋
      ∧ ⌊f32_round (f32_round (q / 100) * 116)⌋ ≤ 116
      ∧ |⌊f32_round (f32_round (q / 100) * 116)⌋ - ⌊q / 100 * 116⌋| ≤ 1 := by
  obtain ⟨p0, p1, p2⟩ := scaled_product_near q h0 h1
  have hr : f32_mul (f32_div q 100.0) bar_width = f32_round (f32_round (q / 100) * 116) := by
    simp only [f32_mul, f32_div, bar_width]
    norm_num
  rw [hr] at p0 p1 p2
  have hl : 0 ≤ ⌊f32_round (f32_round (q / 100) * 116)⌋ := Int.floor_nonneg.mpr p0
  have hu : ⌊f32_round (f32_round (q / 100) * 116)⌋ ≤ 116 := by
    have hlt : f32_round (f32_round (q / 100) * 116) < ((117 : ℤ) : ℚ) := by
      push_cast; exact p1
    have := Int.floor_lt.mpr hlt
    omega
  refine ⟨?_, ?_, hl, hu, floor_near _ _ p2⟩
  · unfold filled_width
    rw [hr, to_int, if_pos p0]
    simp only [bar_width]
    omega
  · unfold reserve_marker_x
    rw [hr, to_int, if_pos p0]
    simp only [bar_width, bar_left]
    omega

/-- At the float percentage 14463117/16777216 (0.862...) the quotient by 100 rounds to
9256395/1073741824 and its product with 116, which is 0.99999998..., rounds to 1.0. -/
theorem scaled_product_rounds_up :
    f32_round (14463117 / 16777216) = 14463117 / 16777216
      ∧ f32_round (f32_round ((14463117 / 16777216 : ℚ) / 100) * 116) = 1
      ∧ ⌊(14463117 / 16777216 : ℚ) / 100 * 116⌋ = 0 := by
  have hd : f32_round ((14463117 / 16777216 : ℚ) / 100) = 9256395 / 1073741824 := by
    rw [f32_round_of_exponent _ (-7) (by norm_num) (by norm_num) (Or.inl (by norm_num))
      (by norm_num)]
    norm_num [round_half_even]
  refine ⟨?_, ?_, by norm_num⟩
  · rw [f32_round_of_exponent _ (-1) (by norm_num) (by norm_num) (Or.inl (by norm_num))
      (by norm_num)]
    norm_num [round_half_even]
  · rw [hd, f32_round_of_exponent _ (-1) (by norm_num) (by norm_num) (Or.inl (by norm_num))
      (by norm_num)]
    norm_num [round_half_even]

/-- C6, as the specification states it, fails: at the float `battery_pct` =
14463117/16777216, inside [0, 100], `floor(battery_pct / 100 * 116)` is 0 but the float
product of line 171 rounds to 1.0 and the routine fills one column. -/
theorem filled_width_rounds_up :
    f32_round (14463117 / 16777216) = 14463117 / 16777216
      ∧ ((0 : ℚ) ≤ 14463117 / 16777216 ∧ (14463117 / 16777216 : ℚ) ≤ 100)
      ∧ filled_width (clamp_battery_pct (14463117 / 16777216)) = 1
      ∧ spec_fill_width (14463117 / 16777216) = 0 := by
  obtain ⟨r1, r2, r3⟩ := scaled_product_rounds_up
  have hc : clamp_battery_pct (14463117 / 16777216) = 14463117 / 16777216 := by
    norm_num [clamp_battery_pct]
  refine ⟨r1, by norm_num, ?_, ?_⟩
  · rw [hc, (scaled_width_near _ (by norm_num) (by norm_num)).1, r2]
    norm_num
  · simp only [spec_fill_width]
    rw [if_neg (by norm_num), if_neg (by norm_num), r3]

/-- C6, amended: for a known `battery_pct` the filled width that `draw_screen` computes,
and draws the fill of the bar with, is 0 below 0 and 116 above 100, the widths at
`battery_pct` = 0 and at `battery_pct` = 100; inside [0, 100] it is the floor of the float
product and is `floor(battery_pct / 100 * 116)` or one column beside it; it always lies
in [0, 116]. -/
theorem filled_width_near_boundary (battery_pct : ℚ)
    (battery_kw solar_kw grid_kw reserve_pct : CFloat)
    (battery_flow_state : Int) (flow_animation_phase : ℚ) :
    draw_bar_fill (filled_width (clamp_battery_pct battery_pct))
          (reserve_marker_x (clamp_reserve_pct reserve_pct))
        <:+ (draw_screen (some battery_pct) battery_kw solar_kw grid_kw reserve_pct
              battery_flow_state flow_animation_phase).cmds
      ∧ (filled_width (clamp_battery_pct battery_pct) = spec_fill_width battery_pct
          ∨ (0 ≤ battery_pct ∧ battery_pct ≤ 100
              ∧ |filled_width (clamp_battery_pct battery_pct)
                  - spec_fill_width battery_pct| ≤ 1))
      ∧ filled_width (clamp_battery_pct battery_pct)
          = ⌊f32_round (f32_round (spec_clamp battery_pct 0 100 / 100) * 116)⌋
      ∧ 0 ≤ filled_width (clamp_battery_pct battery_pct)
      ∧ filled_width (clamp_battery_pct battery_pct) ≤ 116
      ∧ filled_width (clamp_battery_pct 0) = 0
      ∧ filled_width (clamp_battery_pct 100) = 116 := by
  obtain ⟨x0, x1, x3, x20, x22, x100, x116⟩ := exact_literals
  have f0 : filled_width 0 = 0 := by
    rw [(scaled_width_near 0 (by norm_num) (by norm_num)).1]
    norm_num [x0]
  have f100 : filled_width 100 = 116 := by
    rw [(scaled_width_near 100 (by norm_num) (by norm_num)).1]
    norm_num [x1, x116]
  have c0 : clamp_battery_pct 0 = 0 := by norm_num [clamp_battery_pct]
  have c100 : clamp_battery_pct 100 = 100 := by norm_num [clamp_battery_pct]
  obtain ⟨ce, cl, cu⟩ := clamp_battery_pct_bounds battery_pct
  obtain ⟨w1, _, w3, w4, w5⟩ := scaled_width_near (clamp_battery_pct battery_pct) cl cu
  refine ⟨?_, ?_, by rw [w1, ce], by rw [w1]; exact w3, by rw [w1]; exact w4,
    by rw [c0]; exact f0, by rw [c100]; exact f100⟩
  · exact List.IsSuffix.trans (List.suffix_cons _ _)
      (marker_and_fill_end_frame battery_pct battery_kw solar_kw grid_kw reserve_pct
        battery_flow_state flow_animation_phase)
  · by_cases hn : battery_pct < 0
    · left
      have hc : clamp_battery_pct battery_pct = 0 := by
        simp only [clamp_battery_pct]
        rw [if_pos hn]
        norm_num
      rw [hc, f0, spec_fill_width, if_pos hn]
    · by_cases hp : battery_pct > 100
      · left
        have hc : clamp_battery_pct battery_pct = 100 := by
          simp only [clamp_battery_pct]
          rw [if_neg hn, if_pos hp]
        rw [hc, f100, spec_fill_width, if_neg hn, if_pos hp]
      · right
        have hc : clamp_battery_pct battery_pct = battery_pct := by
          simp only [clamp_battery_pct]
          rw [if_neg hn, if_neg hp]
        refine ⟨not_lt.mp hn, not_lt.mp hp, ?_⟩
        rw [w1, spec_fill_width, if_neg hn, if_neg hp]
        rw [hc] at w5 ⊢
        exact w5

/-- C8, as the specification states it, fails: at the float `reserve_pct` =
14463117/16777216 `floor(reserve_pct / 100 * 116)` is 0 but the float product of line 174
rounds to 1.0 and the routine draws the marker at x = 1. -/
theorem reserve_marker_rounds_up :
    f32_round (14463117 / 16777216) = 14463117 / 16777216
      ∧ reserve_marker_x (clamp_reserve_pct (some (14463117 / 16777216))) = 1
      ∧ spec_marker_offset (some (14463117 / 16777216)) = 0
      ∧ (DrawCmd.line 1 56 1 63
            :: draw_bar_fill (filled_width (clamp_battery_pct 50)) 1)
          <:+ (draw_screen (some 50) none none none (some (14463117 / 16777216)) 0 0).cmds := by
  obtain ⟨r1, r2, r3⟩ := scaled_product_rounds_up
  have hc : clamp_reserve_pct (some (14463117 / 16777216)) = 14463117 / 16777216 := by
    norm_num [clamp_reserve_pct]
  have hx : reserve_marker_x (clamp_reserve_pct (some (14463117 / 16777216))) = 1 := by
    rw [hc, (scaled_width_near _ (by norm_num) (by norm_num)).2.1, r2]
    norm_num
  refine ⟨r1, hx, ?_, ?_⟩
  · simp only [spec_marker_offset, spec_clamp]
    rw [if_neg (by norm_num), if_neg (by norm_num), r3]
  · have := marker_and_fill_end_frame 50 none none none (some (14463117 / 16777216)) 0 0
    rw [hx] at this
    exact this

/-- C8, amended: with `battery_pct` known the frame ends with the reserve marker line and
the fill of the bar; the marker is at the floor of the float product of line 174 on
`clamp(reserve_pct, 0, 100)`, an unknown `reserve_pct` read as 20.0, which is
`floor(clamp(reserve_pct, 0, 100) / 100 * 116)` or one pixel beside it and lies in
[0, 116]; it is 23 both for `reserve_pct` = 20 and for `reserve_pct` unknown. -/
theorem reserve_marker_position (battery_pct : ℚ)
    (battery_kw solar_kw grid_kw reserve_pct : CFloat)
    (battery_flow_state : Int) (flow_animation_phase : ℚ) :
    (DrawCmd.line (reserve_marker_x (clamp_reserve_pct reserve_pct)) 56
          (reserve_marker_x (clamp_reserve_pct reserve_pct)) 63
          :: draw_bar_fill (filled_width (clamp_battery_pct battery_pct))
              (reserve_marker_x (clamp_reserve_pct reserve_pct)))
        <:+ (draw_screen (some battery_pct) battery_kw solar_kw grid_kw reserve_pct
              battery_flow_state flow_animation_phase).cmds
      ∧ reserve_marker_x (clamp_reserve_pct reserve_pct)
          = ⌊f32_round (f32_round (spec_reserve_pct reserve_pct / 100) * 116)⌋
      ∧ |reserve_marker_x (clamp_reserve_pct reserve_pct)
          - spec_marker_offset reserve_pct| ≤ 1
      ∧ 0 ≤ reserve_marker_x (clamp_reserve_pct reserve_pct)
      ∧ reserve_marker_x (clamp_reserve_pct reserve_pct) ≤ 116
      ∧ reserve_marker_x (clamp_reserve_pct (some 20)) = 23
      ∧ reserve_marker_x (clamp_reserve_pct none) = 23 := by
  have h20 : reserve_marker_x 20 = 23 := by
    have hd : f32_round ((20 : ℚ) / 100) = 13421773 / 67108864 := by
      rw [f32_round_of_exponent _ (-3) (by norm_num) (by norm_num) (Or.inl (by norm_num))
        (by norm_num)]
      norm_num [round_half_even]
    have hm : f32_round ((13421773 / 67108864 : ℚ) * 116) = 6081741 / 262144 := by
      rw [f32_round_of_exponent _ 4 (by norm_num) (by norm_num) (Or.inl (by norm_num))
        (by norm_num)]
      norm_num [round_half_even]
    rw [(scaled_width_near 20 (by norm_num) (by norm_num)).2.1, hd, hm]
    norm_num
  have c20 : clamp_reserve_pct (some 20) = 20 := by norm_num [clamp_reserve_pct]
  have cn : clamp_reserve_pct none = 20 := by norm_num [clamp_reserve_pct]
  have hsr : clamp_reserve_pct reserve_pct = spec_reserve_pct reserve_pct := by
    rw [(clamp_reserve_pct_bounds reserve_pct).1]
    cases reserve_pct <;> norm_num [spec_reserve_pct, Option.getD, spec_clamp]
  have hso : spec_marker_offset reserve_pct
      = ⌊clamp_reserve_pct reserve_pct / 100 * 116⌋ := by
    rw [(clamp_reserve_pct_bounds reserve_pct).1]
    cases reserve_pct <;> simp [spec_marker_offset, Option.getD]
  obtain ⟨_, cl, cu⟩ := clamp_reserve_pct_bounds reserve_pct
  obtain ⟨_, w2, w3, w4, w5⟩ := scaled_width_near (clamp_reserve_pct reserve_pct) cl cu
  refine ⟨?_, by rw [w2, hsr], by rw [w2, hso]; exact w5, by rw [w2]; exact w3,
    by rw [w2]; exact w4, by rw [c20]; exact h20, by rw [cn]; exact h20⟩
  exact marker_and_fill_end_frame battery_pct battery_kw solar_kw grid_kw reserve_pct
    battery_flow_state flow_animation_phase

/-- The flags of lines 97-103 while Charging, in terms of the test against `0.10f`. -/
theorem source_flags (solar_kw grid_kw : CFloat) :
    from_grid true grid_kw = known_above grid_kw source_threshold
      ∧ from_solar true solar_kw grid_kw
          = (!(known_above grid_kw source_threshold)
              && known_above solar_kw source_threshold) := by
  have hg : from_grid true grid_kw = known_above grid_kw source_threshold := by
    cases grid_kw <;> simp [from_grid, known_above, literal_values.1]
  refine ⟨hg, ?_⟩
  simp only [from_solar, hg]
  cases solar_kw <;> simp [known_above, literal_values.1]

/-- C9, as the specification states it, fails: the float `0.10f` = 13421773/134217728 is
above 0.10, so the specification attributes the charge to the grid, while line 101 tests
`grid_kw > 0.10f`, which is false, and the routine draws the small dot and no bolt. -/
theorem grid_attribution_fails_at_float :
    f32_round (13421773 / 134217728) = 13421773 / 134217728
      ∧ (13421773 / 134217728 : ℚ) > 0.10
      ∧ spec_source (some (13421773 / 134217728)) none = PowerSource.grid
      ∧ (draw_screen (some 50) none none (some (13421773 / 134217728)) none
          (-1) 0).battery_flow_state = -1
      ∧ (∃ y : Int,
          (draw_screen (some 50) none none (some (13421773 / 134217728)) none
              (-1) 0).cmds.filter is_icon_cmd
            = spec_up_arrow ++ spec_track 104 y ++ [DrawCmd.filled_circle 114 40 2])
      ∧ DrawCmd.line 117 30 111 38
          ∉ (draw_screen (some 50) none none (some (13421773 / 134217728)) none
              (-1) 0).cmds := by
  have hsrc : spec_source_f32 (some (13421773 / 134217728)) none = PowerSource.neither := by
    norm_num [spec_source_f32, known_above, source_threshold]
  have hf := frame_icon_cmds 50 none none (some (13421773 / 134217728)) none (-1) 0
  rw [hsrc] at hf
  have hu : update_flow_state none (-1) = -1 := rfl
  rw [hu] at hf
  have hi : spec_mode_icons (-1) PowerSource.neither
        (flow_marker_y 26 (decide ((-1 : Int) = 1)) (advance_phase none 0))
      = spec_up_arrow
        ++ spec_track 104 (flow_marker_y 26 (decide ((-1 : Int) = 1)) (advance_phase none 0))
        ++ [DrawCmd.filled_circle 114 40 2] := by
    simp [spec_mode_icons, spec_source_icon]
  rw [hi] at hf
  refine ⟨?_, by norm_num, by norm_num [spec_source, known_above], rfl, ⟨_, hf⟩, ?_⟩
  · rw [f32_round_of_exponent _ (-4) (by norm_num) (by norm_num) (Or.inl (by norm_num))
      (by norm_num)]
    norm_num [round_half_even]
  · intro hmem
    have hm : DrawCmd.line 117 30 111 38
        ∈ (draw_screen (some 50) none none (some (13421773 / 134217728)) none
            (-1) 0).cmds.filter is_icon_cmd :=
      List.mem_filter.mpr ⟨hmem, by simp [is_icon_cmd]⟩
    rw [hf] at hm
    simp [spec_up_arrow, spec_track] at hm

/-- C9, amended: when the flow state after the call is Charging, the icon area holds the
up-arrow, the flow track and the icon of the source, drawn stroke by stroke just before
the bar, where the source is grid (bolt) if `grid_kw` is known and above the float `0.10f`
= 13421773/134217728 whatever `solar_kw` is, else solar (sun) if `solar_kw` is known and
above `0.10f`, else neither (small dot); the flags `from_grid` and `from_solar` are those of
that source and are never both set; `grid_kw` = `solar_kw` = 0.5 gives grid; and the source
is the one of the specification's decimal test unless `grid_kw` or `solar_kw` lies between
0.10 and `0.10f`. -/
theorem source_attribution_while_charging (battery_pct : ℚ)
    (battery_kw solar_kw grid_kw reserve_pct : CFloat)
    (battery_flow_state : Int) (flow_animation_phase : ℚ)
    (h : (draw_screen (some battery_pct) battery_kw solar_kw grid_kw reserve_pct
            battery_flow_state flow_animation_phase).battery_flow_state = -1) :
    (∃ y : Int,
        (draw_screen (some battery_pct) battery_kw solar_kw grid_kw reserve_pct
            battery_flow_state flow_animation_phase).cmds.filter is_icon_cmd
          = spec_up_arrow ++ spec_track 104 y
            ++ spec_source_icon (spec_source_f32 grid_kw solar_kw))
      ∧ (spec_source_icon (spec_source_f32 grid_kw solar_kw)
            ++ draw_battery_bar (clamp_battery_pct battery_pct)
                (clamp_reserve_pct reserve_pct))
          <:+ (draw_screen (some battery_pct) battery_kw solar_kw grid_kw reserve_pct
                battery_flow_state flow_animation_phase).cmds
      ∧ (from_grid true grid_kw = true
          ↔ spec_source_f32 grid_kw solar_kw = PowerSource.grid)
      ∧ (from_solar true solar_kw grid_kw = true
          ↔ spec_source_f32 grid_kw solar_kw = PowerSource.solar)
      ∧ ¬ (from_grid true grid_kw = true ∧ from_solar true solar_kw grid_kw = true)
      ∧ (∀ s : CFloat, known_above grid_kw source_threshold = true
          → spec_source_f32 grid_kw s = PowerSource.grid)
      ∧ spec_source_f32 (some 0.5) (some 0.5) = PowerSource.grid
      ∧ (spec_source_f32 grid_kw solar_kw = spec_source grid_kw solar_kw
          ∨ in_source_gap grid_kw ∨ in_source_gap solar_kw) := by
  have hs : update_flow_state battery_kw battery_flow_state = -1 := h
  obtain ⟨hg, hsol⟩ := source_flags solar_kw grid_kw
  have hgap : ∀ v : CFloat,
      known_above v source_threshold = known_above v 0.10 ∨ in_source_gap v := by
    intro v
    cases v with
    | none => exact Or.inl rfl
    | some x =>
      by_cases h1 : x > source_threshold
      · left
        have h2 : x > 0.10 := by unfold source_threshold at h1; linarith
        simp [known_above, h1, h2]
      · by_cases h2 : x > 0.10
        · exact Or.inr ⟨h2, not_lt.mp h1⟩
        · left
          simp [known_above, h1, h2]
  refine ⟨?_, ?_, ?_, ?_, ?_, ?_, ?_, ?_⟩
  · refine ⟨flow_marker_y 26 (decide ((-1 : Int) = 1))
      (advance_phase battery_kw flow_animation_phase), ?_⟩
    rw [frame_icon_cmds, hs]
    simp [spec_mode_icons]
  · rw [draw_screen_cmds_spec, hs]
    refine ⟨[DrawCmd.fill Color.COLOR_OFF,
        DrawCmd.printf 0 0 Font.font_small TextAlign.TOP_LEFT "%s"
          (PrintArg.str (spec_mode_label (-1)))]
      ++ spec_power_text battery_kw
      ++ [DrawCmd.printf 0 16 Font.font_big TextAlign.TOP_LEFT "%.0f%%"
            (PrintArg.num (clamp_battery_pct battery_pct))]
      ++ spec_up_arrow
      ++ spec_track 104 (flow_marker_y 26 (decide ((-1 : Int) = 1))
          (advance_phase battery_kw flow_animation_phase)), ?_⟩
    simp [spec_mode_icons]
  · rw [hg]
    unfold spec_source_f32
    cases known_above grid_kw source_threshold <;>
      cases known_above solar_kw source_threshold <;> simp
  · rw [hsol]
    unfold spec_source_f32
    cases known_above grid_kw source_threshold <;>
      cases known_above solar_kw source_threshold <;> simp
  · rw [hg, hsol]
    cases known_above grid_kw source_threshold <;>
      cases known_above solar_kw source_threshold <;> simp
  · intro s hk
    simp [spec_source_f32, hk]
  · norm_num [spec_source_f32, known_above, source_threshold]
  · rcases hgap grid_kw with e1 | g1
    · rcases hgap solar_kw with e2 | g2
      · left
        simp only [spec_source_f32, spec_source, e1, e2]
      · exact Or.inr (Or.inr g2)
    · exact Or.inr (Or.inl g1)

/-- Witness of the amended C9: the reading -1 kW from Idle enters Charging. -/
theorem source_attribution_while_charging_witness :
    (draw_screen (some 50) (some (-1)) (some 0.5) (some 0.5) none 0 0).battery_flow_state = -1
      ∧ ∃ y : Int,
          (draw_screen (some 50) (some (-1)) (some 0.5) (some 0.5) none 0 0).cmds.filter
              is_icon_cmd
            = spec_up_arrow ++ spec_track 104 y
              ++ spec_source_icon (spec_source_f32 (some 0.5) (some 0.5)) :=
  have hst : (draw_screen (some 50) (some (-1)) (some 0.5) (some 0.5) none 0
      0).battery_flow_state = -1 := by
    have hc := update_flow_state_code FlowMode.Idle (-1)
    simp only [FlowMode.code] at hc
    simp only [draw_screen, hc]
    norm_num [spec_transition_f32, FlowMode.code, enter_threshold]
  ⟨hst, (source_attribution_while_charging 50 (some (-1)) (some 0.5) (some 0.5) none 0 0
    hst).1⟩

/-- C13: with `battery_pct` known, the commands of the icon area are exactly the icons of
the flow state after the call, stroke by stroke and drawn just before the bar: the
up-arrow, the flow track and a source icon when Charging; the down-arrow and the flow
track when Discharging; the ring alone when Idle. So exactly one directional icon is
drawn, the source icon only when Charging and the flow track only when Charging or
Discharging. -/
theorem icons_by_mode (battery_pct : ℚ)
    (battery_kw solar_kw grid_kw reserve_pct : CFloat)
    (battery_flow_state : Int) (flow_animation_phase : ℚ) :
    ∃ (source : PowerSource) (marker_y : Int),
      (draw_screen (some battery_pct) battery_kw solar_kw grid_kw reserve_pct
          battery_flow_state flow_animation_phase).cmds.filter is_icon_cmd
          = spec_mode_icons
              (draw_screen (some battery_pct) battery_kw solar_kw grid_kw reserve_pct
                battery_flow_state flow_animation_phase).battery_flow_state
              source marker_y
        ∧ (spec_mode_icons
              (draw_screen (some battery_pct) battery_kw solar_kw grid_kw reserve_pct
                battery_flow_state flow_animation_phase).battery_flow_state
              source marker_y
            ++ draw_battery_bar (clamp_battery_pct battery_pct)
                (clamp_reserve_pct reserve_pct))
          <:+ (draw_screen (some battery_pct) battery_kw solar_kw grid_kw reserve_pct
                battery_flow_state flow_animation_phase).cmds := by
  have hst : (draw_screen (some battery_pct) battery_kw solar_kw grid_kw reserve_pct
      battery_flow_state flow_animation_phase).battery_flow_state
      = update_flow_state battery_kw battery_flow_state := rfl
  refine ⟨spec_source_f32 grid_kw solar_kw,
    flow_marker_y 26 (decide (update_flow_state battery_kw battery_flow_state = 1))
      (advance_phase battery_kw flow_animation_phase), ?_, ?_⟩
  · rw [hst]
    exact frame_icon_cmds battery_pct battery_kw solar_kw grid_kw reserve_pct
      battery_flow_state flow_animation_phase
  · rw [hst, draw_screen_cmds_spec]
    refine ⟨[DrawCmd.fill Color.COLOR_OFF,
        DrawCmd.printf 0 0 Font.font_small TextAlign.TOP_LEFT "%s"
          (PrintArg.str (spec_mode_label
            (update_flow_state battery_kw battery_flow_state)))]
      ++ spec_power_text battery_kw
      ++ [DrawCmd.printf 0 16 Font.font_big TextAlign.TOP_LEFT "%.0f%%"
            (PrintArg.num (clamp_battery_pct battery_pct))], ?_⟩
    simp

/-- C19: with `battery_pct` known and the phase before the call in [0, 1] (the range
[0, 1) of the specification and the value 1.0 that line 131 can leave), the marker of the
flow track is between the end points y0 = 28 and y1 = 50 in both directions of flow, and
every filled circle of the marker's radius in the frame has `28 <= y <= 50`. -/
theorem marker_stays_on_track (battery_pct : ℚ)
    (battery_kw solar_kw grid_kw reserve_pct : CFloat)
    (battery_flow_state : Int) (flow_animation_phase : ℚ)
    (h0 : 0 ≤ flow_animation_phase) (h1 : flow_animation_phase ≤ 1) :
    (∀ flow_downward : Bool,
        28 ≤ flow_marker_y 26 flow_downward
            (draw_screen (some battery_pct) battery_kw solar_kw grid_kw reserve_pct
              battery_flow_state flow_animation_phase).flow_animation_phase
          ∧ flow_marker_y 26 flow_downward
              (draw_screen (some battery_pct) battery_kw solar_kw grid_kw reserve_pct
                battery_flow_state flow_animation_phase).flow_animation_phase ≤ 50)
      ∧ (∀ x y : Int,
          DrawCmd.filled_circle x y 2
              ∈ (draw_screen (some battery_pct) battery_kw solar_kw grid_kw reserve_pct
                  battery_flow_state flow_animation_phase).cmds
            → 28 ≤ y ∧ y ≤ 50) := by
  have hph : (draw_screen (some battery_pct) battery_kw solar_kw grid_kw reserve_pct
      battery_flow_state flow_animation_phase).flow_animation_phase
      = advance_phase battery_kw flow_animation_phase := rfl
  obtain ⟨p0, p1, _⟩ := advance_phase_bounds battery_kw flow_animation_phase h0 h1
  have hb : ∀ d : Bool,
      28 ≤ flow_marker_y 26 d (advance_phase battery_kw flow_animation_phase)
        ∧ flow_marker_y 26 d (advance_phase battery_kw flow_animation_phase) ≤ 50 :=
    fun d => ⟨(flow_marker_y_bounds d _ (le_of_lt p0) p1).2.1,
      (flow_marker_y_bounds d _ (le_of_lt p0) p1).2.2.1⟩
  refine ⟨fun d => by rw [hph]; exact hb d, ?_⟩
  intro x y hmem
  have hf : DrawCmd.filled_circle x y 2
      ∈ (draw_screen (some battery_pct) battery_kw solar_kw grid_kw reserve_pct
          battery_flow_state flow_animation_phase).cmds.filter is_icon_cmd :=
    List.mem_filter.mpr ⟨hmem, rfl⟩
  rw [frame_icon_cmds] at hf
  have hd := hb (decide (update_flow_state battery_kw battery_flow_state = 1))
  unfold spec_mode_icons at hf
  split_ifs at hf
  · cases hsrc : spec_source_f32 grid_kw solar_kw <;>
      simp [hsrc, spec_source_icon, spec_up_arrow, spec_track] at hf <;>
      omega
  · simp [spec_down_arrow, spec_track] at hf
    omega
  · simp at hf

/-- Witness of C19: Charging at -1.5 kW from the phase 0.5. -/
theorem marker_stays_on_track_witness :
    ((0 : ℚ) ≤ 0.5 ∧ (0.5 : ℚ) ≤ 1)
      ∧ ∀ x y : Int,
          DrawCmd.filled_circle x y 2
              ∈ (draw_screen (some 50) (some (-1.5)) none none none (-1) 0.5).cmds
            → 28 ≤ y ∧ y ≤ 50 :=
  ⟨⟨by norm_num, by norm_num⟩,
    (marker_stays_on_track 50 (some (-1.5)) none none none (-1) 0.5
      (by norm_num) (by norm_num)).2⟩

/-- C20: a flow state `s` outside -1, 0, +1 comes back unchanged from every call, and with
`battery_pct` known the frame is the Idle frame: the label "Idle", the power text if
`battery_kw` is known, the percentage, the ring and the bar, the ring being the only
command in the icon area (no arrow, track or source icon). -/
theorem undefined_flow_state_is_frozen
    (battery_pct battery_kw solar_kw grid_kw reserve_pct : CFloat)
    (s : Int) (flow_animation_phase : ℚ) (known_pct : ℚ)
    (h : s ≠ -1 ∧ s ≠ 0 ∧ s ≠ 1) :
    (draw_screen battery_pct battery_kw solar_kw grid_kw reserve_pct
        s flow_animation_phase).battery_flow_state = s
      ∧ (draw_screen (some known_pct) battery_kw solar_kw grid_kw reserve_pct
          s flow_animation_phase).cmds
          = [DrawCmd.fill Color.COLOR_OFF,
              DrawCmd.printf 0 0 Font.font_small TextAlign.TOP_LEFT "%s" (PrintArg.str "Idle")]
            ++ spec_power_text battery_kw
            ++ [DrawCmd.printf 0 16 Font.font_big TextAlign.TOP_LEFT "%.0f%%"
                  (PrintArg.num (clamp_battery_pct known_pct)),
                DrawCmd.circle 104 40 7]
            ++ draw_battery_bar (clamp_battery_pct known_pct) (clamp_reserve_pct reserve_pct)
      ∧ (draw_screen (some known_pct) battery_kw solar_kw grid_kw reserve_pct
          s flow_animation_phase).cmds.filter is_icon_cmd = [DrawCmd.circle 104 40 7] := by
  obtain ⟨hc, hi, hd⟩ := h
  have hu : update_flow_state battery_kw s = s := by
    cases battery_kw <;> simp [update_flow_state, hc, hi, hd]
  refine ⟨?_, ?_, ?_⟩
  · cases battery_pct with
    | none => rfl
    | some p => exact hu
  · rw [draw_screen_cmds_spec, hu]
    simp [spec_mode_icons, spec_mode_label, hc, hd]
  · rw [frame_icon_cmds, hu]
    simp [spec_mode_icons, hc, hd]

/-- Witness of C20: the flow state 2 with 1 kW read. -/
theorem undefined_flow_state_is_frozen_witness :
    ((2 : Int) ≠ -1 ∧ (2 : Int) ≠ 0 ∧ (2 : Int) ≠ 1)
      ∧ (draw_screen (some 50) (some 1) none none none 2 0).battery_flow_state = 2
      ∧ (draw_screen (some 50) (some 1) none none none 2 0).cmds.filter is_icon_cmd
          = [DrawCmd.circle 104 40 7] :=
  ⟨by decide,
    (undefined_flow_state_is_frozen (some 50) (some 1) none none none 2 0 50
      (by decide)).1,
    (undefined_flow_state_is_frozen (some 50) (some 1) none none none 2 0 50
      (by decide)).2.2⟩

end battery_gauge
